import Mathlib

/-!
Shallow embedding of the film-metadata repository's two state stores
(`useFilmSettings` and `useExposureLog` in
`src/app/composables/useExposureLog.ts`) and proofs about the claims of
the specification.

Modelling conventions:
* JavaScript numbers are modelled by `JsNum`: a finite rational, `nan`,
  `inf` or `negInf`.  The code performs no arithmetic beyond coercion
  (`Number(...)`), `Math.round`, `Math.max`, finiteness tests and
  comparison with zero, all of which are modelled exactly.
* JavaScript runtime values (the result of `JSON.parse` and the contents
  of in-memory objects) are modelled by `JsVal`, which includes
  `undefined`.  `JSON.parse ∘ JSON.stringify` is modelled by
  `jsonifyVal` (drop `undefined`-valued object fields, turn `undefined`
  array elements and non-finite numbers into `null`); the textual JSON
  layer itself is abstracted away, since stringify-then-parse is the
  identity on JSON document trees.
* A fallible `JSON.parse` call is modelled by an `Except Unit JsVal`
  argument: `.error ()` is a parse exception, which the code catches.
* `createId()` is nondeterministic at runtime; operations take the
  generated id as an explicit argument, and the sanitizers take a
  generator `gen : ℕ → String` for ids of stored items that lack one.
* Objects are association lists `List (String × JsVal)` with unique keys
  (as produced by `JSON.parse`); key lookup is `List.lookup`, and a
  later spread overriding an earlier one is modelled by prepending.
-/

/-- A JavaScript number: a finite value (IEEE doubles are rationals),
`NaN`, `Infinity` or `-Infinity`. -/
inductive JsNum where
  | num (q : ℚ)
  | nan
  | inf
  | negInf
deriving DecidableEq, Repr

namespace JsNum

/-- `Number.isFinite` on a value already known to be a number. -/
def isFinite : JsNum → Bool
  | num _ => true
  | _ => false

/-- JavaScript `n > 0` (false for `NaN`, true for `Infinity`). -/
def gtZero : JsNum → Bool
  | num q => 0 < q
  | inf => true
  | _ => false

/-- JavaScript truthiness of a number: `0` and `NaN` are falsy. -/
def truthy : JsNum → Bool
  | num q => q ≠ 0
  | nan => false
  | _ => true

end JsNum

/-- `Math.round`: round half toward positive infinity (only ever applied
to finite numbers in this code, after a `Number.isFinite` guard). -/
def jsRound (q : ℚ) : ℤ := ⌊q + 1/2⌋

/-- JavaScript whitespace characters handled by `String.prototype.trim`
(the forms that occur in practice). -/
def isJsWhitespace (c : Char) : Bool :=
  c = ' ' ∨ c = '\t' ∨ c = '\n' ∨ c = '\r'

/-- `String.prototype.trim`. -/
def jsTrim (s : String) : String :=
  ⟨(s.data.dropWhile isJsWhitespace).reverse.dropWhile isJsWhitespace |>.reverse⟩

/-- A JavaScript runtime value, as far as this code can observe it. -/
inductive JsVal where
  | undefined
  | null
  | bool (b : Bool)
  | num (n : JsNum)
  | str (s : String)
  | arr (items : List JsVal)
  | obj (fields : List (String × JsVal))

namespace JsVal

/-- `typeof item === 'object' && item !== null`: `null`, arrays and
plain objects have typeof `object`; the guard excludes `null`. -/
def isObjectLike : JsVal → Bool
  | arr _ => true
  | obj _ => true
  | _ => false

/-- JavaScript truthiness. -/
def truthy : JsVal → Bool
  | undefined => false
  | null => false
  | bool b => b
  | num n => n.truthy
  | str s => s ≠ ""
  | arr _ => true
  | obj _ => true

end JsVal

/-- Decimal rendering of a rational that is a whole number; fractional
values keep an exact decimal form where one exists.  Only integral
values ever reach `String(...)` in the claims below. -/
def ratToString (q : ℚ) : String :=
  if q.den = 1 then toString q.num else toString q.num ++ "." ++ toString q.den

/-- `Number(string)` on the string forms this code can meet: the empty
or all-whitespace string is `0`, an optionally signed decimal integer
parses to its value, `"Infinity"`/`"-Infinity"` parse to infinities, and
anything else is `NaN`.  (Fractional literals are not produced by the
store, whose serialized numbers re-enter as `JsVal.num`, not strings.) -/
def parseNumStr (s : String) : JsNum :=
  let t := jsTrim s
  if t = "" then .num 0
  else if t = "Infinity" then .inf
  else if t = "-Infinity" then .negInf
  else
    let core := if t.startsWith "-" ∨ t.startsWith "+" then t.drop 1 else t
    if core ≠ "" ∧ core.data.all Char.isDigit then
      let v : ℚ := (core.toNat!: ℚ)
      .num (if t.startsWith "-" then -v else v)
    else .nan

mutual

/-- JavaScript `String(value)` conversion. -/
def jsToString : JsVal → String
  | .undefined => "undefined"
  | .null => "null"
  | .bool b => if b then "true" else "false"
  | .num (.num q) => ratToString q
  | .num .nan => "NaN"
  | .num .inf => "Infinity"
  | .num .negInf => "-Infinity"
  | .str s => s
  | .arr items => joinComma items
  | .obj _ => "[object Object]"

/-- `Array.prototype.toString`: elements joined with commas,
`null`/`undefined` elements rendered empty. -/
def joinComma : List JsVal → String
  | [] => ""
  | [x] => elemString x
  | x :: rest => elemString x ++ "," ++ joinComma rest

/-- One array element inside `Array.prototype.toString`. -/
def elemString : JsVal → String
  | .undefined => ""
  | .null => ""
  | v => jsToString v

end

/-- JavaScript `Number(value)` coercion. -/
def jsToNumber : JsVal → JsNum
  | .undefined => .nan
  | .null => .num 0
  | .bool b => .num (if b then 1 else 0)
  | .num n => n
  | .str s => parseNumStr s
  | v => parseNumStr (jsToString v)

/-! ## The settings data model (`useFilmSettings`) -/

/-- `interface Camera`. -/
structure Camera where
  id : String
  name : String
deriving DecidableEq, Repr

/-- `interface Lens`. -/
structure Lens where
  id : String
  name : String
  focalLength : Option JsNum
deriving DecidableEq, Repr

/-- `interface FilmStock` (`iso` is always an integer after the store's
coercion). -/
structure FilmStock where
  id : String
  name : String
  iso : ℤ
  format : Option String
deriving DecidableEq, Repr

/-- `interface FilmSettingsState`. -/
structure FilmSettingsState where
  cameras : List Camera
  lenses : List Lens
  filmStocks : List FilmStock
  currentCameraId : Option String
  currentLensId : Option String
  currentFilmStockId : Option String
  locationEnabled : Bool
deriving DecidableEq, Repr

/-- `defaultState()`. -/
def defaultState : FilmSettingsState :=
  { cameras := []
    lenses := []
    filmStocks := []
    currentCameraId := none
    currentLensId := none
    currentFilmStockId := none
    locationEnabled := false }

/-- JavaScript truthiness of a `currentXId` field (`!state.value.currentCameraId`):
`undefined` and the empty string are falsy. -/
def idFalsy : Option String → Bool
  | none => true
  | some s => s = ""

/-! ## Settings store mutators.  Each takes the id produced by
`createId()` as an explicit argument. -/

/-- `addCamera(payload)`. -/
def addCamera (st : FilmSettingsState) (name : String) (newId : String) :
    FilmSettingsState :=
  let cameras := st.cameras ++ [{ id := newId, name := jsTrim name }]
  { st with
    cameras
    currentCameraId :=
      if idFalsy st.currentCameraId then (cameras.head?).map Camera.id
      else st.currentCameraId }

/-- `removeCamera(id)`. -/
def removeCamera (st : FilmSettingsState) (id : String) : FilmSettingsState :=
  let cameras := st.cameras.filter (fun camera => camera.id ≠ id)
  { st with
    cameras
    currentCameraId :=
      if st.currentCameraId = some id then (cameras.head?).map Camera.id
      else st.currentCameraId }

/-- `setCurrentCamera(id?)`. -/
def setCurrentCamera (st : FilmSettingsState) (id : Option String) :
    FilmSettingsState :=
  { st with currentCameraId := id }

/-- `addLens(payload)`: `payload.focalLength && payload.focalLength > 0`
keeps the value, otherwise `undefined`. -/
def addLens (st : FilmSettingsState) (name : String)
    (focalLength : Option JsNum) (newId : String) : FilmSettingsState :=
  let fl : Option JsNum :=
    match focalLength with
    | some n => if n.truthy ∧ n.gtZero then some n else none
    | none => none
  let lenses := st.lenses ++ [{ id := newId, name := jsTrim name, focalLength := fl }]
  { st with
    lenses
    currentLensId :=
      if idFalsy st.currentLensId then (lenses.head?).map Lens.id
      else st.currentLensId }

/-- `removeLens(id)`. -/
def removeLens (st : FilmSettingsState) (id : String) : FilmSettingsState :=
  let lenses := st.lenses.filter (fun lens => lens.id ≠ id)
  { st with
    lenses
    currentLensId :=
      if st.currentLensId = some id then (lenses.head?).map Lens.id
      else st.currentLensId }

/-- `setCurrentLens(id?)`. -/
def setCurrentLens (st : FilmSettingsState) (id : Option String) :
    FilmSettingsState :=
  { st with currentLensId := id }

/-- `addFilmStock(payload)`: `Number.isFinite(payload.iso)` picks the
rounded-and-clamped value, otherwise `100`; the format is trimmed with
the empty result dropped. -/
def addFilmStock (st : FilmSettingsState) (name : String)
    (iso : Option JsNum) (format : Option String) (newId : String) :
    FilmSettingsState :=
  let isoVal : ℤ :=
    match iso with
    | some (.num q) => max 1 (jsRound q)
    | _ => 100
  let fmt : Option String :=
    match format with
    | some s => let t := jsTrim s; if t = "" then none else some t
    | none => none
  let filmStocks := st.filmStocks ++
    [{ id := newId, name := jsTrim name, iso := isoVal, format := fmt }]
  { st with
    filmStocks
    currentFilmStockId :=
      if idFalsy st.currentFilmStockId then (filmStocks.head?).map FilmStock.id
      else st.currentFilmStockId }

/-- `removeFilmStock(id)`. -/
def removeFilmStock (st : FilmSettingsState) (id : String) : FilmSettingsState :=
  let filmStocks := st.filmStocks.filter (fun film => film.id ≠ id)
  { st with
    filmStocks
    currentFilmStockId :=
      if st.currentFilmStockId = some id then (filmStocks.head?).map FilmStock.id
      else st.currentFilmStockId }

/-- `setCurrentFilmStock(id?)`. -/
def setCurrentFilmStock (st : FilmSettingsState) (id : Option String) :
    FilmSettingsState :=
  { st with currentFilmStockId := id }

/-- `setLocationPreference(enabled)`. -/
def setLocationPreference (st : FilmSettingsState) (enabled : Bool) :
    FilmSettingsState :=
  { st with locationEnabled := enabled }

/-- States producible by the settings store's own operations, starting
from the default state.  Generated ids are arbitrary strings. -/
inductive Reachable : FilmSettingsState → Prop where
  | default : Reachable defaultState
  | addCamera {st} (name newId : String) :
      Reachable st → Reachable (addCamera st name newId)
  | removeCamera {st} (id : String) :
      Reachable st → Reachable (removeCamera st id)
  | setCurrentCamera {st} (id : Option String) :
      Reachable st → Reachable (setCurrentCamera st id)
  | addLens {st} (name : String) (focalLength : Option JsNum) (newId : String) :
      Reachable st → Reachable (addLens st name focalLength newId)
  | removeLens {st} (id : String) :
      Reachable st → Reachable (removeLens st id)
  | setCurrentLens {st} (id : Option String) :
      Reachable st → Reachable (setCurrentLens st id)
  | addFilmStock {st} (name : String) (iso : Option JsNum)
      (format : Option String) (newId : String) :
      Reachable st → Reachable (addFilmStock st name iso format newId)
  | removeFilmStock {st} (id : String) :
      Reachable st → Reachable (removeFilmStock st id)
  | setCurrentFilmStock {st} (id : Option String) :
      Reachable st → Reachable (setCurrentFilmStock st id)
  | setLocationPreference {st} (enabled : Bool) :
      Reachable st → Reachable (setLocationPreference st enabled)

/-- A current pointer, when set, references an entity of its list. -/
def PtrInv {α : Type} (idOf : α → String) (l : List α) (ptr : Option String) :
    Prop :=
  ∀ c, ptr = some c → ∃ x ∈ l, idOf x = c

/-- The specification's invariant: each current pointer, when set,
references an entity present in the corresponding list. -/
def SettingsInv (st : FilmSettingsState) : Prop :=
  PtrInv Camera.id st.cameras st.currentCameraId ∧
  PtrInv Lens.id st.lenses st.currentLensId ∧
  PtrInv FilmStock.id st.filmStocks st.currentFilmStockId

/-! ## Objects, property access, and the `stringify`/`parse` round trip -/

/-- Key lookup in an object's field list (first occurrence; parse output
has unique keys). -/
def objLookup (k : String) : List (String × JsVal) → Option JsVal
  | [] => none
  | (k', v) :: rest => if k' = k then some v else objLookup k rest

/-- `value === undefined || value === null` (the `??` test). -/
def JsVal.isNullish : JsVal → Bool
  | .undefined => true
  | .null => true
  | _ => false

/-- `value === ''`. -/
def JsVal.isEmptyStr : JsVal → Bool
  | .str "" => true
  | _ => false

/-- Property access `value[k]` for a non-numeric key `k`: `undefined`
unless the value is a plain object holding the key. -/
def getProp (v : JsVal) (k : String) : JsVal :=
  match v with
  | .obj fs => (objLookup k fs).getD .undefined
  | _ => .undefined

/-- `x ?? ''`. -/
def coalesceEmptyStr (v : JsVal) : JsVal :=
  if v.isNullish then .str "" else v

/-- `entry[k] = v`: overwrite the key in place, or append it. -/
def setProp (fs : List (String × JsVal)) (k : String) (v : JsVal) :
    List (String × JsVal) :=
  if (objLookup k fs).isSome then
    fs.map (fun p => if p.1 = k then (k, v) else p)
  else fs ++ [(k, v)]

/-- The own enumerable string-keyed properties seen by `{...value}` and
by object destructuring; `none` models the `TypeError` destructuring
throws on `null`/`undefined`. -/
def restOf : JsVal → Option (List (String × JsVal))
  | .undefined => none
  | .null => none
  | .bool _ => some []
  | .num _ => some []
  | .str s => some ((s.data.enum).map (fun p => (toString p.1, .str ⟨[p.2]⟩)))
  | .arr items => some ((items.enum).map (fun p => (toString p.1, p.2)))
  | .obj fs => some fs

mutual

/-- `JSON.parse (JSON.stringify value)` as a tree transformation:
object fields holding `undefined` are omitted, `undefined` array
elements and non-finite numbers become `null`. -/
def jsonifyVal : JsVal → JsVal
  | .undefined => .null
  | .null => .null
  | .bool b => .bool b
  | .num (.num q) => .num (.num q)
  | .num _ => .null
  | .str s => .str s
  | .arr items => .arr (jsonifyList items)
  | .obj fs => .obj (jsonifyObj fs)

/-- `jsonifyVal` on array elements. -/
def jsonifyList : List JsVal → List JsVal
  | [] => []
  | x :: xs => jsonifyVal x :: jsonifyList xs

/-- `jsonifyVal` on object fields: `undefined`-valued keys are dropped. -/
def jsonifyObj : List (String × JsVal) → List (String × JsVal)
  | [] => []
  | (_, .undefined) :: rest => jsonifyObj rest
  | (k, v) :: rest => (k, jsonifyVal v) :: jsonifyObj rest

end

/-! ## The settings sanitizers (`sanitizeCameras`, `sanitizeLenses`,
`sanitizeFilmStocks`).  `gen k` is the value of the `k`-th `createId()`
call made for items that lack an `id`. -/

/-- Loop body of `sanitizeCameras`, threading the `createId` counter. -/
def sanitizeCamerasGo (gen : ℕ → String) : ℕ → List JsVal → List Camera
  | _, [] => []
  | k, item :: rest =>
    if ¬ item.isObjectLike then sanitizeCamerasGo gen k rest
    else
      let name := jsTrim (jsToString (coalesceEmptyStr (getProp item "name")))
      if name = "" then sanitizeCamerasGo gen k rest
      else
        let rawId := getProp item "id"
        if rawId.isNullish then
          { id := gen k, name } :: sanitizeCamerasGo gen (k + 1) rest
        else
          { id := jsToString rawId, name } :: sanitizeCamerasGo gen k rest

/-- `sanitizeCameras(items)`. -/
def sanitizeCameras (gen : ℕ → String) : JsVal → List Camera
  | .arr items => sanitizeCamerasGo gen 0 items
  | _ => []

/-- The focal-length coercion shared by `sanitizeLenses` and
`sanitizeExposureEntry`: a value that is not `undefined`, `null` or `''`
is converted with `Number(...)` and kept when finite and positive. -/
def coerceFocalLength (raw : JsVal) : Option JsNum :=
  if ¬ raw.isNullish ∧ ¬ raw.isEmptyStr then
    let parsed := jsToNumber raw
    if parsed.isFinite ∧ parsed.gtZero then some parsed else none
  else none

/-- Loop body of `sanitizeLenses`. -/
def sanitizeLensesGo (gen : ℕ → String) : ℕ → List JsVal → List Lens
  | _, [] => []
  | k, item :: rest =>
    if ¬ item.isObjectLike then sanitizeLensesGo gen k rest
    else
      let name := jsTrim (jsToString (coalesceEmptyStr (getProp item "name")))
      if name = "" then sanitizeLensesGo gen k rest
      else
        let focalLength := coerceFocalLength (getProp item "focalLength")
        let rawId := getProp item "id"
        if rawId.isNullish then
          { id := gen k, name, focalLength } :: sanitizeLensesGo gen (k + 1) rest
        else
          { id := jsToString rawId, name, focalLength } :: sanitizeLensesGo gen k rest

/-- `sanitizeLenses(items)`. -/
def sanitizeLenses (gen : ℕ → String) : JsVal → List Lens
  | .arr items => sanitizeLensesGo gen 0 items
  | _ => []

/-- The iso coercion of `sanitizeFilmStocks`: `Number.isFinite(raw)` is
a non-coercing test, so only a finite number is rounded and clamped;
everything else (including numeric strings) falls back to `100`. -/
def coerceIso (raw : JsVal) : ℤ :=
  match raw with
  | .num (.num q) => max 1 (jsRound q)
  | _ => 100

/-- The format coercion of `sanitizeFilmStocks`: a truthy value is
stringified and trimmed (possibly to the empty string). -/
def coerceFormat (raw : JsVal) : Option String :=
  if raw.truthy then some (jsTrim (jsToString raw)) else none

/-- Loop body of `sanitizeFilmStocks`. -/
def sanitizeFilmStocksGo (gen : ℕ → String) : ℕ → List JsVal → List FilmStock
  | _, [] => []
  | k, item :: rest =>
    if ¬ item.isObjectLike then sanitizeFilmStocksGo gen k rest
    else
      let name := jsTrim (jsToString (coalesceEmptyStr (getProp item "name")))
      if name = "" then sanitizeFilmStocksGo gen k rest
      else
        let iso := coerceIso (getProp item "iso")
        let format := coerceFormat (getProp item "format")
        let rawId := getProp item "id"
        if rawId.isNullish then
          { id := gen k, name, iso, format } :: sanitizeFilmStocksGo gen (k + 1) rest
        else
          { id := jsToString rawId, name, iso, format } :: sanitizeFilmStocksGo gen k rest

/-- `sanitizeFilmStocks(items)`. -/
def sanitizeFilmStocks (gen : ℕ → String) : JsVal → List FilmStock
  | .arr items => sanitizeFilmStocksGo gen 0 items
  | _ => []

/-! ## Settings hydration and write-through serialization -/

/-- The value assigned to `state.value` by settings hydration: the
scalar keys at the JavaScript-object level (so that retained legacy
fields are observable) together with the three sanitized lists, which
always override whatever `...rest` contributed. -/
structure HydratedSettings where
  scalars : List (String × JsVal)
  cameras : List Camera
  lenses : List Lens
  filmStocks : List FilmStock

/-- The scalar keys `defaultState()` contributes to the object literal
(its list keys are overridden by the explicit properties). -/
def defaultScalars : List (String × JsVal) :=
  [("currentCameraId", .undefined), ("currentLensId", .undefined),
   ("currentFilmStockId", .undefined), ("locationEnabled", .bool false)]

/-- Hydration result for the catch branch: `state.value = defaultState()`. -/
def defaultHydrated : HydratedSettings :=
  { scalars := defaultScalars, cameras := [], lenses := [], filmStocks := [] }

/-- The keys removed from `rest` by the destructuring
`const { rollLabel: _rollLabel, cameras, lenses, filmStocks, ...rest }`. -/
def destructuredKeys : List String :=
  ["rollLabel", "cameras", "lenses", "filmStocks"]

/-- Settings hydration given the outcome of `JSON.parse(raw)` (`.error`
is a parse exception).  The boolean records whether the catch branch ran
and logged a warning.  Destructuring `null` also throws, landing in the
same catch. -/
def hydrateSettings (gen : ℕ → String) (raw : Except Unit JsVal) :
    HydratedSettings × Bool :=
  match raw with
  | .error _ => (defaultHydrated, true)
  | .ok parsed =>
    match restOf parsed with
    | none => (defaultHydrated, true)
    | some fields =>
      let rest := fields.filter (fun p => p.1 ∉ destructuredKeys)
      ({ scalars := rest ++ defaultScalars
         cameras := sanitizeCameras gen ((objLookup "cameras" fields).getD .undefined)
         lenses := sanitizeLenses gen ((objLookup "lenses" fields).getD .undefined)
         filmStocks :=
           sanitizeFilmStocks gen ((objLookup "filmStocks" fields).getD .undefined) },
       false)

/-- An optional string field of an in-memory object. -/
def optStr : Option String → JsVal
  | some s => .str s
  | none => .undefined

/-- An optional numeric field of an in-memory object. -/
def optNum : Option JsNum → JsVal
  | some n => .num n
  | none => .undefined

/-- The in-memory object a `Camera` is. -/
def cameraToJs (c : Camera) : JsVal :=
  .obj [("id", .str c.id), ("name", .str c.name)]

/-- The in-memory object a `Lens` is (the `focalLength` key is always
present, possibly `undefined`). -/
def lensToJs (l : Lens) : JsVal :=
  .obj [("id", .str l.id), ("name", .str l.name),
        ("focalLength", optNum l.focalLength)]

/-- The in-memory object a `FilmStock` is. -/
def filmStockToJs (f : FilmStock) : JsVal :=
  .obj [("id", .str f.id), ("name", .str f.name),
        ("iso", .num (.num (f.iso : ℚ))), ("format", optStr f.format)]

/-- The fields of the in-memory object behind `state.value`, in
`defaultState()`'s key order. -/
def stateFields (st : FilmSettingsState) : List (String × JsVal) :=
  [("cameras", .arr (st.cameras.map cameraToJs)),
   ("lenses", .arr (st.lenses.map lensToJs)),
   ("filmStocks", .arr (st.filmStocks.map filmStockToJs)),
   ("currentCameraId", optStr st.currentCameraId),
   ("currentLensId", optStr st.currentLensId),
   ("currentFilmStockId", optStr st.currentFilmStockId),
   ("locationEnabled", .bool st.locationEnabled)]

/-- The in-memory object behind `state.value`;
`JSON.stringify(value)` is `jsonifyVal` of this. -/
def stateToJs (st : FilmSettingsState) : JsVal :=
  .obj (stateFields st)

/-- Reading a `currentXId` field of the hydrated object at its TypeScript
type: `undefined` is an unset pointer. -/
def decodeOptStr : JsVal → Option (Option String)
  | .undefined => some none
  | .str s => some (some s)
  | _ => none

/-- Reading `locationEnabled` at its TypeScript type. -/
def decodeBool : JsVal → Option Bool
  | .bool b => some b
  | _ => none

/-- The hydrated object viewed as a `FilmSettingsState`, when its scalar
fields have the types the TypeScript interface declares. -/
def decodeSettings (h : HydratedSettings) : Option FilmSettingsState := do
  let cc ← decodeOptStr ((objLookup "currentCameraId" h.scalars).getD .undefined)
  let cl ← decodeOptStr ((objLookup "currentLensId" h.scalars).getD .undefined)
  let cf ← decodeOptStr ((objLookup "currentFilmStockId" h.scalars).getD .undefined)
  let loc ← decodeBool ((objLookup "locationEnabled" h.scalars).getD .undefined)
  some { cameras := h.cameras, lenses := h.lenses, filmStocks := h.filmStocks,
         currentCameraId := cc, currentLensId := cl,
         currentFilmStockId := cf, locationEnabled := loc }

/-- The full write-then-load pipeline for the settings store: persist
`state.value` as write-through does, re-parse, hydrate, and view the
result at the state type. -/
def settingsRoundTrip (gen : ℕ → String) (st : FilmSettingsState) :
    Option FilmSettingsState :=
  decodeSettings (hydrateSettings gen (.ok (jsonifyVal (stateToJs st)))).1

/-! ## The exposure log (`useExposureLog`) -/

/-- `interface ExposureLocation`. -/
structure ExposureLocation where
  latitude : JsNum
  longitude : JsNum
  accuracy : JsNum
deriving DecidableEq, Repr

/-- `interface ExposureEntry`. -/
structure ExposureEntry where
  id : String
  timestamp : String
  cameraId : Option String
  cameraName : Option String
  lensId : Option String
  lensName : Option String
  lensFocalLength : Option JsNum
  filmStockId : Option String
  filmStockName : Option String
  filmStockIso : Option ℤ
  note : Option String
  shutterSpeed : Option String
  aperture : Option String
  location : Option ExposureLocation
deriving DecidableEq, Repr

/-- `interface AddExposureInput`. -/
structure AddExposureInput where
  note : Option String := none
  shutterSpeed : Option String := none
  aperture : Option String := none

/-- `interface AddExposureResult`; the error carries the message of the
caught exception. -/
structure AddExposureResult where
  entry : ExposureEntry
  locationCaptured : Bool
  locationError : Option String
deriving DecidableEq, Repr

/-- The `currentCamera` computed property: a `find` by the current id
(`camera.id === state.value.currentCameraId` never holds when the
pointer is `undefined`, since ids are strings). -/
def currentCamera (st : FilmSettingsState) : Option Camera :=
  match st.currentCameraId with
  | some c => st.cameras.find? (fun cam => cam.id = c)
  | none => none

/-- The `currentLens` computed property. -/
def currentLens (st : FilmSettingsState) : Option Lens :=
  match st.currentLensId with
  | some l => st.lenses.find? (fun lens => lens.id = l)
  | none => none

/-- The `currentFilmStock` computed property. -/
def currentFilmStock (st : FilmSettingsState) : Option FilmStock :=
  match st.currentFilmStockId with
  | some f => st.filmStocks.find? (fun film => film.id = f)
  | none => none

/-- `input.note?.trim() || undefined`. -/
def trimOrNone : Option String → Option String
  | some s => let t := jsTrim s; if t = "" then none else some t
  | none => none

/-- `addExposure(input)`.  The asynchronous `captureLocation()` attempt
is modelled by its outcome `geo` (`.error` is the caught rejection,
already converted to an error message); it is consulted only when
`settings.locationEnabled` holds, exactly as in the source.  `newId` and
`timestamp` stand for `createId()` and `new Date().toISOString()`.
Returns the `AddExposureResult` and the updated log. -/
def addExposure (settings : FilmSettingsState) (log : List ExposureEntry)
    (input : AddExposureInput) (newId timestamp : String)
    (geo : Except String ExposureLocation) :
    AddExposureResult × List ExposureEntry :=
  let location : Option ExposureLocation :=
    if settings.locationEnabled then geo.toOption else none
  let locationError : Option String :=
    if settings.locationEnabled then
      match geo with
      | .error e => some e
      | .ok _ => none
    else none
  let entry : ExposureEntry :=
    { id := newId
      timestamp := timestamp
      cameraId := settings.currentCameraId
      cameraName := (currentCamera settings).map Camera.name
      lensId := settings.currentLensId
      lensName := (currentLens settings).map Lens.name
      lensFocalLength := (currentLens settings).bind Lens.focalLength
      filmStockId := settings.currentFilmStockId
      filmStockName := (currentFilmStock settings).map FilmStock.name
      filmStockIso := (currentFilmStock settings).map FilmStock.iso
      note := trimOrNone input.note
      shutterSpeed := trimOrNone input.shutterSpeed
      aperture := trimOrNone input.aperture
      location := location }
  ({ entry := entry, locationCaptured := location.isSome,
     locationError := locationError },
   entry :: log)

/-- `removeExposure(id)`. -/
def removeExposure (log : List ExposureEntry) (id : String) :
    List ExposureEntry :=
  log.filter (fun exposure => exposure.id ≠ id)

/-- `sanitizeExposureEntry(item)`: `null` for a non-object, otherwise a
copy of the object with only `lensFocalLength` re-coerced (the key is
written back even when the coercion drops the value). -/
def sanitizeExposureEntry (item : JsVal) : Option (List (String × JsVal)) :=
  if ¬ item.isObjectLike then none
  else
    let fields := (restOf item).getD []
    let raw := getProp item "lensFocalLength"
    let newVal : JsVal :=
      match coerceFocalLength raw with
      | some n => .num n
      | none => .undefined
    some (setProp fields "lensFocalLength" newVal)

/-- Exposure-log hydration given the outcome of `JSON.parse(raw)`:
on a parse exception the previous (initial) in-memory value is kept and
a warning is logged; a parsed non-array is ignored; a parsed array is
mapped through `sanitizeExposureEntry` and the `null`s filtered out. -/
def hydrateExposures (raw : Except Unit JsVal)
    (prev : List (List (String × JsVal))) :
    List (List (String × JsVal)) × Bool :=
  match raw with
  | .error _ => (prev, true)
  | .ok (.arr items) => (items.filterMap sanitizeExposureEntry, false)
  | .ok _ => (prev, false)

/-- The in-memory object an `ExposureLocation` is. -/
def locationToJs (l : ExposureLocation) : JsVal :=
  .obj [("latitude", .num l.latitude), ("longitude", .num l.longitude),
        ("accuracy", .num l.accuracy)]

/-- An optional integer field of an in-memory object. -/
def optInt : Option ℤ → JsVal
  | some i => .num (.num (i : ℚ))
  | none => .undefined

/-- An optional location field of an in-memory object. -/
def optLoc : Option ExposureLocation → JsVal
  | some l => locationToJs l
  | none => .undefined

/-- The fields of the in-memory object an `ExposureEntry` is, in the key
order of the object literal in `addExposure` (every key present, absent
options being `undefined`). -/
def entryFields (e : ExposureEntry) : List (String × JsVal) :=
  [("id", .str e.id), ("timestamp", .str e.timestamp),
   ("cameraId", optStr e.cameraId), ("cameraName", optStr e.cameraName),
   ("lensId", optStr e.lensId), ("lensName", optStr e.lensName),
   ("lensFocalLength", optNum e.lensFocalLength),
   ("filmStockId", optStr e.filmStockId),
   ("filmStockName", optStr e.filmStockName),
   ("filmStockIso", optInt e.filmStockIso),
   ("note", optStr e.note), ("shutterSpeed", optStr e.shutterSpeed),
   ("aperture", optStr e.aperture),
   ("location", optLoc e.location)]

/-- The in-memory object an `ExposureEntry` is. -/
def entryToJs (e : ExposureEntry) : JsVal :=
  .obj (entryFields e)

/-- Reading an optional numeric field at its TypeScript type. -/
def decodeOptNum : JsVal → Option (Option JsNum)
  | .undefined => some none
  | .num n => some (some n)
  | _ => none

/-- Reading `filmStockIso` at its (integer-valued) type. -/
def decodeOptInt : JsVal → Option (Option ℤ)
  | .undefined => some none
  | .num (.num q) => if q.den = 1 then some (some q.num) else none
  | _ => none

/-- Reading a required string field. -/
def decodeStr : JsVal → Option String
  | .str s => some s
  | _ => none

/-- Reading the optional `location` object. -/
def decodeLocation : JsVal → Option (Option ExposureLocation)
  | .undefined => some none
  | .obj fs => do
    let la ← decodeOptNum ((objLookup "latitude" fs).getD .undefined)
    let lo ← decodeOptNum ((objLookup "longitude" fs).getD .undefined)
    let ac ← decodeOptNum ((objLookup "accuracy" fs).getD .undefined)
    match la, lo, ac with
    | some la, some lo, some ac =>
      some (some { latitude := la, longitude := lo, accuracy := ac })
    | _, _, _ => none
  | _ => none

/-- A hydrated exposure object viewed as an `ExposureEntry`, when its
fields have the types the TypeScript interface declares. -/
def decodeEntry (fs : List (String × JsVal)) : Option ExposureEntry := do
  let id ← decodeStr ((objLookup "id" fs).getD .undefined)
  let timestamp ← decodeStr ((objLookup "timestamp" fs).getD .undefined)
  let cameraId ← decodeOptStr ((objLookup "cameraId" fs).getD .undefined)
  let cameraName ← decodeOptStr ((objLookup "cameraName" fs).getD .undefined)
  let lensId ← decodeOptStr ((objLookup "lensId" fs).getD .undefined)
  let lensName ← decodeOptStr ((objLookup "lensName" fs).getD .undefined)
  let lensFocalLength ← decodeOptNum ((objLookup "lensFocalLength" fs).getD .undefined)
  let filmStockId ← decodeOptStr ((objLookup "filmStockId" fs).getD .undefined)
  let filmStockName ← decodeOptStr ((objLookup "filmStockName" fs).getD .undefined)
  let filmStockIso ← decodeOptInt ((objLookup "filmStockIso" fs).getD .undefined)
  let note ← decodeOptStr ((objLookup "note" fs).getD .undefined)
  let shutterSpeed ← decodeOptStr ((objLookup "shutterSpeed" fs).getD .undefined)
  let aperture ← decodeOptStr ((objLookup "aperture" fs).getD .undefined)
  let location ← decodeLocation ((objLookup "location" fs).getD .undefined)
  some { id, timestamp, cameraId, cameraName, lensId, lensName,
         lensFocalLength, filmStockId, filmStockName, filmStockIso,
         note, shutterSpeed, aperture, location }

/-- The full write-then-load pipeline for the exposure log: persist the
entry array as write-through does, re-parse, hydrate into an (initially
empty) store, and view each object at the entry type. -/
def exposuresRoundTrip (log : List ExposureEntry) :
    Option (List ExposureEntry) :=
  ((hydrateExposures (.ok (jsonifyVal (.arr (log.map entryToJs)))) []).1).mapM
    decodeEntry

/-! ## Well-formedness: the conditions under which persisted state
survives the load-time sanitizers unchanged -/

/-- A name the sanitizers keep verbatim: nonempty and already trimmed. -/
def wfName (s : String) : Bool :=
  s ≠ "" && jsTrim s == s

/-- An optional focal length the sanitizers keep verbatim: absent, or a
finite positive number. -/
def wfOptNum : Option JsNum → Bool
  | none => true
  | some n => n.isFinite && n.gtZero

/-- A camera whose serialized form re-hydrates to itself. -/
def wfCamera (c : Camera) : Bool := wfName c.name

/-- A lens whose serialized form re-hydrates to itself. -/
def wfLens (l : Lens) : Bool := wfName l.name && wfOptNum l.focalLength

/-- A film stock whose serialized form re-hydrates to itself. -/
def wfFilmStock (f : FilmStock) : Bool :=
  wfName f.name && decide (1 ≤ f.iso) &&
    (match f.format with
     | none => true
     | some s => wfName s)

/-- A settings state whose serialized form re-hydrates to itself. -/
def wfSettings (st : FilmSettingsState) : Bool :=
  st.cameras.all wfCamera && st.lenses.all wfLens &&
    st.filmStocks.all wfFilmStock

/-- An exposure entry whose serialized form re-hydrates to itself: the
focal length absent or finite positive (the one re-coerced field), and
any location coordinates finite (non-finite numbers do not survive
`JSON.stringify`). -/
def wfEntry (e : ExposureEntry) : Bool :=
  wfOptNum e.lensFocalLength &&
    (match e.location with
     | none => true
     | some l => l.latitude.isFinite && l.longitude.isFinite && l.accuracy.isFinite)

/-- States producible when every `setCurrentX` call passes `undefined`
or the id of an entity present in the corresponding list. -/
inductive ValidReachable : FilmSettingsState → Prop where
  | default : ValidReachable defaultState
  | addCamera {st} (name newId : String) :
      ValidReachable st → ValidReachable (addCamera st name newId)
  | removeCamera {st} (id : String) :
      ValidReachable st → ValidReachable (removeCamera st id)
  | setCurrentCamera {st} (id : Option String) :
      (∀ c ∈ id, ∃ cam ∈ st.cameras, cam.id = c) →
      ValidReachable st → ValidReachable (setCurrentCamera st id)
  | addLens {st} (name : String) (focalLength : Option JsNum) (newId : String) :
      ValidReachable st → ValidReachable (addLens st name focalLength newId)
  | removeLens {st} (id : String) :
      ValidReachable st → ValidReachable (removeLens st id)
  | setCurrentLens {st} (id : Option String) :
      (∀ l ∈ id, ∃ lens ∈ st.lenses, lens.id = l) →
      ValidReachable st → ValidReachable (setCurrentLens st id)
  | addFilmStock {st} (name : String) (iso : Option JsNum)
      (format : Option String) (newId : String) :
      ValidReachable st → ValidReachable (addFilmStock st name iso format newId)
  | removeFilmStock {st} (id : String) :
      ValidReachable st → ValidReachable (removeFilmStock st id)
  | setCurrentFilmStock {st} (id : Option String) :
      (∀ f ∈ id, ∃ film ∈ st.filmStocks, film.id = f) →
      ValidReachable st → ValidReachable (setCurrentFilmStock st id)
  | setLocationPreference {st} (enabled : Bool) :
      ValidReachable st → ValidReachable (setLocationPreference st enabled)

/-- A concrete well-formed settings state used to witness round trips. -/
def exampleSettings : FilmSettingsState :=
  { cameras := [{ id := "c1", name := "Leica M6" }]
    lenses := [{ id := "l1", name := "Summicron", focalLength := some (.num 50) },
               { id := "l2", name := "Elmarit", focalLength := none }]
    filmStocks := [{ id := "f1", name := "Portra", iso := 400,
                     format := some "135" }]
    currentCameraId := some "c1"
    currentLensId := some "l1"
    currentFilmStockId := none
    locationEnabled := true }

/-- A concrete well-formed exposure log used to witness round trips. -/
def exampleLog : List ExposureEntry :=
  [{ id := "e1", timestamp := "2026-01-01T00:00:00.000Z"
     cameraId := some "c1", cameraName := some "Leica M6"
     lensId := some "l1", lensName := some "Summicron"
     lensFocalLength := some (.num 50)
     filmStockId := none, filmStockName := none, filmStockIso := some 400
     note := some "test", shutterSpeed := none, aperture := some "f/2"
     location := some { latitude := .num 1, longitude := .num 2,
                        accuracy := .num 3 } }]

/-! ## Helper lemmas -/

/-- Membership of the element an `xs[0]?.id` read produces. -/
theorem mem_of_headId {α : Type} (idOf : α → String) (l : List α) (c : String)
    (h : (l.head?).map idOf = some c) : ∃ x ∈ l, idOf x = c := by
  cases l with
  | nil => simp at h
  | cons a t =>
    simp only [List.head?_cons, Option.map_some'] at h
    exact ⟨a, List.mem_cons_self a t, by injection h⟩

/-- Appending an entity and reassigning a falsy pointer to the head of
the new list preserves the pointer invariant. -/
theorem ptrInv_append {α : Type} (idOf : α → String) (l : List α)
    (ptr : Option String) (x : α) (h : PtrInv idOf l ptr) :
    PtrInv idOf (l ++ [x])
      (if idFalsy ptr then ((l ++ [x]).head?).map idOf else ptr) := by
  intro c hc
  by_cases hf : idFalsy ptr = true
  · rw [if_pos hf] at hc
    exact mem_of_headId _ _ _ hc
  · rw [if_neg hf] at hc
    obtain ⟨y, hy, hid⟩ := h c hc
    exact ⟨y, List.mem_append_left _ hy, hid⟩

/-- Filtering an id out and letting the pointer fall back to the head of
the filtered list preserves the pointer invariant. -/
theorem ptrInv_remove {α : Type} (idOf : α → String) (l : List α)
    (ptr : Option String) (id : String) (h : PtrInv idOf l ptr) :
    PtrInv idOf (l.filter (fun y => idOf y ≠ id))
      (if ptr = some id then
        ((l.filter (fun y => idOf y ≠ id)).head?).map idOf
       else ptr) := by
  intro c hc
  by_cases he : ptr = some id
  · rw [if_pos he] at hc
    exact mem_of_headId _ _ _ hc
  · rw [if_neg he] at hc
    obtain ⟨y, hy, hid⟩ := h c hc
    have hcid : c ≠ id := fun h' => he (by rw [hc, h'])
    refine ⟨y, List.mem_filter.2 ⟨hy, ?_⟩, hid⟩
    simpa [hid] using hcid

/-- A pointer untouched while its list is appended to keeps the pointer
invariant. -/
theorem ptrInv_append_untouched {α : Type} (idOf : α → String) (l : List α)
    (ptr : Option String) (x : α) (h : PtrInv idOf l ptr) :
    PtrInv idOf (l ++ [x]) ptr := by
  intro c hc
  obtain ⟨y, hy, hid⟩ := h c hc
  exact ⟨y, List.mem_append_left _ hy, hid⟩

/-- The default state satisfies the invariant vacuously. -/
theorem settingsInv_default : SettingsInv defaultState := by
  refine ⟨?_, ?_, ?_⟩ <;> intro c hc <;> simp [defaultState] at hc

/-! ## C1 -/

/-- C1 fails as stated: `setCurrentCamera` stores an arbitrary id
unconditionally, so calling it with an id of no existing camera is a
store operation (from the default state) that breaks the invariant that
`currentCameraId`, if set, references an entity of the camera list. -/
theorem C1_counterexample :
    Reachable (setCurrentCamera defaultState (some "ghost")) ∧
    ¬ SettingsInv (setCurrentCamera defaultState (some "ghost")) := by
  constructor
  · exact .setCurrentCamera _ .default
  · intro h
    obtain ⟨cam, hm, _⟩ := h.1 "ghost" rfl
    simp [setCurrentCamera, defaultState] at hm

/-- C1 amended: every sequence of store operations starting from the
default state preserves the invariant that each current pointer, when
set, references an entity of its list, provided each `setCurrentX` call
passes `undefined` or the id of an entity present in the corresponding
list; an unrestricted `setCurrentX` call can break it. -/
theorem C1_amended_invariant {st : FilmSettingsState}
    (h : ValidReachable st) : SettingsInv st := by
  induction h with
  | default => exact settingsInv_default
  | addCamera name newId _ ih =>
    obtain ⟨h1, h2, h3⟩ := ih
    exact ⟨ptrInv_append _ _ _ _ h1, h2, h3⟩
  | removeCamera id _ ih =>
    obtain ⟨h1, h2, h3⟩ := ih
    exact ⟨ptrInv_remove _ _ _ _ h1, h2, h3⟩
  | setCurrentCamera id hvalid _ ih =>
    obtain ⟨_, h2, h3⟩ := ih
    exact ⟨fun c hc => hvalid c (Option.mem_def.mpr hc), h2, h3⟩
  | addLens name focalLength newId _ ih =>
    obtain ⟨h1, h2, h3⟩ := ih
    exact ⟨h1, ptrInv_append _ _ _ _ h2, h3⟩
  | removeLens id _ ih =>
    obtain ⟨h1, h2, h3⟩ := ih
    exact ⟨h1, ptrInv_remove _ _ _ _ h2, h3⟩
  | setCurrentLens id hvalid _ ih =>
    obtain ⟨h1, _, h3⟩ := ih
    exact ⟨h1, fun c hc => hvalid c (Option.mem_def.mpr hc), h3⟩
  | addFilmStock name iso format newId _ ih =>
    obtain ⟨h1, h2, h3⟩ := ih
    exact ⟨h1, h2, ptrInv_append _ _ _ _ h3⟩
  | removeFilmStock id _ ih =>
    obtain ⟨h1, h2, h3⟩ := ih
    exact ⟨h1, h2, ptrInv_remove _ _ _ _ h3⟩
  | setCurrentFilmStock id hvalid _ ih =>
    obtain ⟨h1, h2, _⟩ := ih
    exact ⟨h1, h2, fun c hc => hvalid c (Option.mem_def.mpr hc)⟩
  | setLocationPreference enabled _ ih => exact ih

/-- C1 amended, witnessed at a concrete operation sequence: add a
camera, then select it by its real id. -/
theorem C1_amended_witness :
    SettingsInv
      (setCurrentCamera (addCamera defaultState "Leica" "c1") (some "c1")) :=
  C1_amended_invariant
    (.setCurrentCamera (some "c1")
      (by intro c hc; simp at hc; subst hc
          exact ⟨{ id := "c1", name := "Leica" }, by decide, rfl⟩)
      (.addCamera "Leica" "c1" .default))

/-! ## C3 -/

/-- C3 fails as stated: `addCamera` performs no name validation, so a
whitespace-only name is not rejected — the camera is appended with the
empty string as its name, and the current pointer changes. -/
theorem C3_counterexample :
    (addCamera defaultState "   " "cam-1").cameras =
      [{ id := "cam-1", name := "" }] ∧
    (addCamera defaultState "   " "cam-1").currentCameraId = some "cam-1" ∧
    addCamera defaultState "   " "cam-1" ≠ defaultState := by
  refine ⟨by decide, by decide, by decide⟩

/-- C3 amended: the add-operations perform no validation at all.  Called
with a name that is empty or whitespace-only after trimming, each one
appends an entity whose name is the empty string (so the state does
change) instead of rejecting the call. -/
theorem C3_amended_no_validation (st : FilmSettingsState) (name : String)
    (h : jsTrim name = "") (newId : String) (fl : Option JsNum)
    (iso : Option JsNum) (fmt : Option String) :
    (addCamera st name newId).cameras =
      st.cameras ++ [{ id := newId, name := "" }] ∧
    (addLens st name fl newId).lenses.map Lens.name =
      st.lenses.map Lens.name ++ [""] ∧
    (addFilmStock st name iso fmt newId).filmStocks.map FilmStock.name =
      st.filmStocks.map FilmStock.name ++ [""] ∧
    addCamera st name newId ≠ st := by
  refine ⟨by simp [addCamera, h], by simp [addLens, h],
    by simp [addFilmStock, h], ?_⟩
  intro he
  have hlen := congrArg (fun s => s.cameras.length) he
  simp [addCamera] at hlen

/-- C3 amended, witnessed at a concrete whitespace-only name. -/
theorem C3_amended_witness :
    jsTrim "   " = "" ∧
    (addCamera defaultState "   " "cam-1").cameras =
      [{ id := "cam-1", name := "" }] := by
  refine ⟨by decide, ?_⟩
  have h :=
    (C3_amended_no_validation defaultState "   " (by decide) "cam-1"
      none none none).1
  simpa [defaultState] using h

/-! ## C4 -/

/-- C4 fails as stated: `addLens` checks `focalLength && focalLength > 0`
but never finiteness, so the non-finite `Infinity` is stored as a
focal length rather than dropped. -/
theorem C4_counterexample :
    (addLens defaultState "Zoom" (some .inf) "lens-1").lenses =
      [{ id := "lens-1", name := "Zoom", focalLength := some .inf }] ∧
    JsNum.inf.isFinite = false := by
  refine ⟨by decide, rfl⟩

/-- C4 amended: `addLens` stores the supplied focalLength exactly when
it compares greater than zero in JavaScript (which admits `Infinity`,
not only finite values), dropping it otherwise; `addFilmStock` stores
`iso` rounded to an integer and clamped to at least 1 when the supplied
iso is a finite number, and stores 100 when it is absent or not finite. -/
theorem C4_amended_coercions (st : FilmSettingsState) (name : String)
    (newId : String) :
    (∀ n : JsNum, (addLens st name (some n) newId).lenses.getLast? =
      some { id := newId, name := jsTrim name,
             focalLength := if n.gtZero then some n else none }) ∧
    ((addLens st name none newId).lenses.getLast? =
      some { id := newId, name := jsTrim name, focalLength := none }) ∧
    (∀ fmt q, ((addFilmStock st name (some (.num q)) fmt
        newId).filmStocks.getLast?).map FilmStock.iso =
      some (max 1 (jsRound q))) ∧
    (∀ fmt (n : JsNum), n.isFinite = false →
      ((addFilmStock st name (some n) fmt
          newId).filmStocks.getLast?).map FilmStock.iso = some 100) ∧
    (∀ fmt, ((addFilmStock st name none fmt
        newId).filmStocks.getLast?).map FilmStock.iso = some 100) := by
  refine ⟨?_, ?_, ?_, ?_, ?_⟩
  · intro n
    cases n with
    | num q =>
      by_cases hq : (0 : ℚ) < q
      · have hne : q ≠ 0 := ne_of_gt hq
        simp [addLens, JsNum.truthy, JsNum.gtZero, hq, hne]
      · simp [addLens, JsNum.truthy, JsNum.gtZero, hq]
    | nan => simp [addLens, JsNum.truthy, JsNum.gtZero]
    | inf => simp [addLens, JsNum.truthy, JsNum.gtZero]
    | negInf => simp [addLens, JsNum.truthy, JsNum.gtZero]
  · simp [addLens]
  · intro fmt q
    simp [addFilmStock]
  · intro fmt n hn
    cases n with
    | num q => simp [JsNum.isFinite] at hn
    | nan => simp [addFilmStock]
    | inf => simp [addFilmStock]
    | negInf => simp [addFilmStock]
  · intro fmt
    simp [addFilmStock]

/-- C4 amended, witnessed: a `NaN` iso falls back to 100. -/
theorem C4_amended_witness :
    ((addFilmStock defaultState "Portra" (some .nan) none
        "f1").filmStocks.getLast?).map FilmStock.iso = some 100 :=
  (C4_amended_coercions defaultState "Portra" "f1").2.2.2.1 none .nan rfl

/-! ## C5 -/

/-- C5: each removal filters the given id out of its list, and when the
removed entity was the current selection the pointer becomes the id of
the first remaining entity (or is cleared when none remain), never a
dangling id; with exactly two lenses and the first selected, removing it
leaves the other lens selected. -/
theorem C5_remove_fallback :
    (∀ st id, (removeCamera st id).cameras =
        st.cameras.filter (fun c => c.id ≠ id) ∧
      (st.currentCameraId = some id →
        (removeCamera st id).currentCameraId =
          (((removeCamera st id).cameras).head?).map Camera.id ∧
        ((removeCamera st id).currentCameraId = none ∨
         ∃ c ∈ (removeCamera st id).cameras,
           (removeCamera st id).currentCameraId = some c.id))) ∧
    (∀ st id, (removeLens st id).lenses =
        st.lenses.filter (fun l => l.id ≠ id) ∧
      (st.currentLensId = some id →
        (removeLens st id).currentLensId =
          (((removeLens st id).lenses).head?).map Lens.id ∧
        ((removeLens st id).currentLensId = none ∨
         ∃ l ∈ (removeLens st id).lenses,
           (removeLens st id).currentLensId = some l.id))) ∧
    (∀ st id, (removeFilmStock st id).filmStocks =
        st.filmStocks.filter (fun f => f.id ≠ id) ∧
      (st.currentFilmStockId = some id →
        (removeFilmStock st id).currentFilmStockId =
          (((removeFilmStock st id).filmStocks).head?).map FilmStock.id ∧
        ((removeFilmStock st id).currentFilmStockId = none ∨
         ∃ f ∈ (removeFilmStock st id).filmStocks,
           (removeFilmStock st id).currentFilmStockId = some f.id))) ∧
    (∀ st (l₁ l₂ : Lens), st.lenses = [l₁, l₂] →
      st.currentLensId = some l₁.id → l₂.id ≠ l₁.id →
      (removeLens st l₁.id).lenses = [l₂] ∧
      (removeLens st l₁.id).currentLensId = some l₂.id) := by
  refine ⟨?_, ?_, ?_, ?_⟩
  · intro st id
    refine ⟨rfl, fun hc => ?_⟩
    have hptr : (removeCamera st id).currentCameraId =
        ((st.cameras.filter (fun c => c.id ≠ id)).head?).map Camera.id := by
      simp only [removeCamera]
      rw [if_pos hc]
    refine ⟨hptr, ?_⟩
    rcases hl : st.cameras.filter (fun c => c.id ≠ id) with _ | ⟨a, t⟩
    · exact .inl (by rw [hptr, hl]; rfl)
    · refine .inr ⟨a, ?_, ?_⟩
      · have hcams : (removeCamera st id).cameras = a :: t := hl
        rw [hcams]
        exact List.mem_cons_self a t
      · rw [hptr, hl]
        rfl
  · intro st id
    refine ⟨rfl, fun hc => ?_⟩
    have hptr : (removeLens st id).currentLensId =
        ((st.lenses.filter (fun l => l.id ≠ id)).head?).map Lens.id := by
      simp only [removeLens]
      rw [if_pos hc]
    refine ⟨hptr, ?_⟩
    rcases hl : st.lenses.filter (fun l => l.id ≠ id) with _ | ⟨a, t⟩
    · exact .inl (by rw [hptr, hl]; rfl)
    · refine .inr ⟨a, ?_, ?_⟩
      · have hlens : (removeLens st id).lenses = a :: t := hl
        rw [hlens]
        exact List.mem_cons_self a t
      · rw [hptr, hl]
        rfl
  · intro st id
    refine ⟨rfl, fun hc => ?_⟩
    have hptr : (removeFilmStock st id).currentFilmStockId =
        ((st.filmStocks.filter (fun f => f.id ≠ id)).head?).map FilmStock.id := by
      simp only [removeFilmStock]
      rw [if_pos hc]
    refine ⟨hptr, ?_⟩
    rcases hl : st.filmStocks.filter (fun f => f.id ≠ id) with _ | ⟨a, t⟩
    · exact .inl (by rw [hptr, hl]; rfl)
    · refine .inr ⟨a, ?_, ?_⟩
      · have hfilm : (removeFilmStock st id).filmStocks = a :: t := hl
        rw [hfilm]
        exact List.mem_cons_self a t
      · rw [hptr, hl]
        rfl
  · intro st l₁ l₂ hl hcur hne
    have hfil : st.lenses.filter (fun l => l.id ≠ l₁.id) = [l₂] := by
      rw [hl]
      simp [hne]
    have hptr : (removeLens st l₁.id).currentLensId =
        ((st.lenses.filter (fun l => l.id ≠ l₁.id)).head?).map Lens.id := by
      simp only [removeLens]
      rw [if_pos hcur]
    refine ⟨hfil, ?_⟩
    rw [hptr, hfil]
    rfl

/-- C5, witnessed on the two-lens scenario with concrete lenses. -/
theorem C5_witness :
    (removeLens
      { cameras := []
        lenses := [{ id := "L1", name := "a", focalLength := none },
                   { id := "L2", name := "b", focalLength := none }]
        filmStocks := []
        currentCameraId := none
        currentLensId := some "L1"
        currentFilmStockId := none
        locationEnabled := false } "L1").currentLensId = some "L2" :=
  (C5_remove_fallback.2.2.2 _
    { id := "L1", name := "a", focalLength := none }
    { id := "L2", name := "b", focalLength := none }
    rfl rfl (by decide)).2

/-! ## C6 -/

/-- C6 fails as stated: with one camera present and the selection
cleared, adding a second camera auto-selects the FIRST camera in the
list (`cameras[0]?.id`), not the newly added one, even though no current
selection existed at the time of the call. -/
theorem C6_counterexample :
    Reachable (addCamera (setCurrentCamera (addCamera defaultState "A"
      "cam-1") none) "B" "cam-2") ∧
    (setCurrentCamera (addCamera defaultState "A" "cam-1")
        none).currentCameraId = none ∧
    (addCamera (setCurrentCamera (addCamera defaultState "A" "cam-1")
        none) "B" "cam-2").currentCameraId = some "cam-1" ∧
    ("cam-1" : String) ≠ "cam-2" := by
  refine ⟨.addCamera _ _ (.setCurrentCamera _ (.addCamera _ _ .default)),
    rfl, by decide, by decide⟩

/-- C6 amended: when the current pointer is unset (or the empty string)
at call time, an add-operation assigns the pointer the id of the FIRST
entity of the updated list — which is the newly added entity only when
the list was previously empty; when a selection exists the pointer is
unchanged.  The Contax T2 scenario from the empty default state holds. -/
theorem C6_autoselect_first (st : FilmSettingsState) (name : String)
    (newId : String) (fl : Option JsNum) (iso : Option JsNum)
    (fmt : Option String) :
    (idFalsy st.currentCameraId = true →
      (addCamera st name newId).currentCameraId =
        ((st.cameras ++
          [({ id := newId, name := jsTrim name } : Camera)]).head?).map
          Camera.id ∧
      (st.cameras = [] →
        (addCamera st name newId).currentCameraId = some newId) ∧
      (∀ c₀ rest, st.cameras = c₀ :: rest →
        (addCamera st name newId).currentCameraId = some c₀.id)) ∧
    (idFalsy st.currentCameraId = false →
      (addCamera st name newId).currentCameraId = st.currentCameraId) ∧
    (idFalsy st.currentLensId = true →
      (addLens st name fl newId).currentLensId =
        (((addLens st name fl newId).lenses).head?).map Lens.id ∧
      (st.lenses = [] →
        (addLens st name fl newId).currentLensId = some newId) ∧
      (∀ l₀ rest, st.lenses = l₀ :: rest →
        (addLens st name fl newId).currentLensId = some l₀.id)) ∧
    (idFalsy st.currentLensId = false →
      (addLens st name fl newId).currentLensId = st.currentLensId) ∧
    (idFalsy st.currentFilmStockId = true →
      (addFilmStock st name iso fmt newId).currentFilmStockId =
        (((addFilmStock st name iso fmt newId).filmStocks).head?).map
          FilmStock.id ∧
      (st.filmStocks = [] →
        (addFilmStock st name iso fmt newId).currentFilmStockId =
          some newId) ∧
      (∀ f₀ rest, st.filmStocks = f₀ :: rest →
        (addFilmStock st name iso fmt newId).currentFilmStockId =
          some f₀.id)) ∧
    (idFalsy st.currentFilmStockId = false →
      (addFilmStock st name iso fmt newId).currentFilmStockId =
        st.currentFilmStockId) ∧
    ((addCamera defaultState "Contax T2" newId).cameras =
      [({ id := newId, name := "Contax T2" } : Camera)] ∧
     (addCamera defaultState "Contax T2" newId).currentCameraId =
      some newId) := by
  have ht : jsTrim "Contax T2" = "Contax T2" := by decide
  refine ⟨fun h => ⟨by simp [addCamera, h],
      fun hc => by simp [addCamera, h, hc],
      fun c₀ rest hc => by simp [addCamera, h, hc]⟩,
    fun h => by simp [addCamera, h],
    fun h => ⟨by simp [addLens, h],
      fun hc => by simp [addLens, h, hc],
      fun l₀ rest hc => by simp [addLens, h, hc]⟩,
    fun h => by simp [addLens, h],
    fun h => ⟨by simp [addFilmStock, h],
      fun hc => by simp [addFilmStock, h, hc],
      fun f₀ rest hc => by simp [addFilmStock, h, hc]⟩,
    fun h => by simp [addFilmStock, h],
    by simp [addCamera, defaultState, idFalsy, ht],
    by simp [addCamera, defaultState, idFalsy]⟩

/-- C6 amended, witnessed on the Contax T2 scenario and on a
cleared-pointer add over a nonempty list (the first, older camera is
selected, not the new one). -/
theorem C6_witness :
    ((addCamera defaultState "Contax T2" "cam-1").cameras =
      [({ id := "cam-1", name := "Contax T2" } : Camera)] ∧
     (addCamera defaultState "Contax T2" "cam-1").currentCameraId =
      some "cam-1") ∧
    (addCamera (setCurrentCamera (addCamera defaultState "A" "c1") none)
        "B" "c2").currentCameraId = some "c1" :=
  ⟨(C6_autoselect_first defaultState "x" "cam-1" none none none).2.2.2.2.2.2,
   ((C6_autoselect_first
       (setCurrentCamera (addCamera defaultState "A" "c1") none)
       "B" "c2" none none none).1 rfl).2.2
     { id := "c1", name := "A" } [] (by decide)⟩

/-! ## C9 -/

/-- C9: `addExposure` converts a geolocation failure into a soft result
(`locationCaptured = false`, the error in `locationError`) while still
creating the entry and prepending it to the log without a location; with
`locationEnabled = false` no capture is attempted, `locationError` is
absent and the entry has no location. -/
theorem C9_addExposure_soft_location_failure :
    (∀ settings log input newId ts geo,
      settings.locationEnabled = false →
        (addExposure settings log input newId ts geo).1.locationCaptured =
          false ∧
        (addExposure settings log input newId ts geo).1.locationError =
          none ∧
        (addExposure settings log input newId ts geo).1.entry.location =
          none ∧
        (addExposure settings log input newId ts geo).2 =
          (addExposure settings log input newId ts geo).1.entry :: log) ∧
    (∀ settings log input newId ts e,
      (addExposure settings log input newId ts
          (.error e)).1.locationCaptured = false ∧
      (addExposure settings log input newId ts (.error e)).1.locationError =
        (if settings.locationEnabled then some e else none) ∧
      (addExposure settings log input newId ts
          (.error e)).1.entry.location = none ∧
      (addExposure settings log input newId ts (.error e)).2 =
        (addExposure settings log input newId ts (.error e)).1.entry ::
          log) := by
  constructor
  · intro settings log input newId ts geo h
    refine ⟨by simp [addExposure, h], by simp [addExposure, h],
      by simp [addExposure, h], by simp [addExposure]⟩
  · intro settings log input newId ts e
    by_cases h : settings.locationEnabled = true
    · refine ⟨by simp [addExposure, h, Except.toOption],
        by simp [addExposure, h], by simp [addExposure, h, Except.toOption],
        by simp [addExposure]⟩
    · have h' : settings.locationEnabled = false := by
        simpa using h
      refine ⟨by simp [addExposure, h'], by simp [addExposure, h'],
        by simp [addExposure, h'], by simp [addExposure]⟩

/-- C9, witnessed on the spec's scenario (`locationEnabled = false`,
`addExposure` with a note) and on a failing capture. -/
theorem C9_witness :
    defaultState.locationEnabled = false ∧
    (addExposure defaultState [] { note := some "test" } "e1" "t1"
        (.error "denied")).1.locationCaptured = false ∧
    (addExposure defaultState [] { note := some "test" } "e1" "t1"
        (.error "denied")).1.locationError = none ∧
    (addExposure defaultState [] { note := some "test" } "e1" "t1"
        (.error "denied")).1.entry.location = none :=
  ⟨rfl,
   (C9_addExposure_soft_location_failure.1 defaultState [] _ "e1" "t1"
     (.error "denied") rfl).1,
   (C9_addExposure_soft_location_failure.1 defaultState [] _ "e1" "t1"
     (.error "denied") rfl).2.1,
   (C9_addExposure_soft_location_failure.1 defaultState [] _ "e1" "t1"
     (.error "denied") rfl).2.2.1⟩

/-! ## Object-level lookup lemmas -/

/-- Scanning past a field with a different key. -/
theorem objLookup_jsonifyObj_cons_ne (k k' : String) (v : JsVal)
    (rest : List (String × JsVal)) (h : k' ≠ k) :
    objLookup k (jsonifyObj ((k', v) :: rest)) =
      objLookup k (jsonifyObj rest) := by
  cases v <;> simp [jsonifyObj, objLookup, h]

/-- A field holding `undefined` is dropped by stringification. -/
theorem objLookup_jsonifyObj_cons_undef (k : String)
    (rest : List (String × JsVal)) :
    objLookup k (jsonifyObj ((k, JsVal.undefined) :: rest)) =
      objLookup k (jsonifyObj rest) := by
  simp [jsonifyObj]

/-- A string field survives stringification. -/
theorem objLookup_jsonifyObj_cons_str (k : String) (s : String)
    (rest : List (String × JsVal)) :
    objLookup k (jsonifyObj ((k, JsVal.str s) :: rest)) =
      some (.str s) := by
  simp [jsonifyObj, objLookup, jsonifyVal]

/-- A finite-number field survives stringification. -/
theorem objLookup_jsonifyObj_cons_numq (k : String) (q : ℚ)
    (rest : List (String × JsVal)) :
    objLookup k (jsonifyObj ((k, JsVal.num (.num q)) :: rest)) =
      some (.num (.num q)) := by
  simp [jsonifyObj, objLookup, jsonifyVal]

/-- A boolean field survives stringification. -/
theorem objLookup_jsonifyObj_cons_bool (k : String) (b : Bool)
    (rest : List (String × JsVal)) :
    objLookup k (jsonifyObj ((k, JsVal.bool b) :: rest)) =
      some (.bool b) := by
  simp [jsonifyObj, objLookup, jsonifyVal]

/-- An object field is stringified recursively. -/
theorem objLookup_jsonifyObj_cons_obj (k : String)
    (fs rest : List (String × JsVal)) :
    objLookup k (jsonifyObj ((k, JsVal.obj fs) :: rest)) =
      some (.obj (jsonifyObj fs)) := by
  simp [jsonifyObj, objLookup, jsonifyVal]

/-- An array field is stringified recursively. -/
theorem objLookup_jsonifyObj_cons_arr (k : String) (xs : List JsVal)
    (rest : List (String × JsVal)) :
    objLookup k (jsonifyObj ((k, JsVal.arr xs) :: rest)) =
      some (.arr (jsonifyList xs)) := by
  simp [jsonifyObj, objLookup, jsonifyVal]

/-- Lookup in the empty object. -/
theorem objLookup_jsonifyObj_nil (k : String) :
    objLookup k (jsonifyObj []) = none := rfl

/-! ## `setProp` lookup lemmas -/

/-- Overwriting an existing key in place makes it the lookup result. -/
theorem objLookup_map_setProp (fs : List (String × JsVal)) (k : String)
    (v : JsVal) (h : (objLookup k fs).isSome = true) :
    objLookup k (fs.map (fun p => if p.1 = k then (k, v) else p)) =
      some v := by
  induction fs with
  | nil => simp [objLookup] at h
  | cons p rest ih =>
    obtain ⟨k₁, v₁⟩ := p
    simp only [List.map_cons]
    by_cases hk : k₁ = k
    · subst hk
      rw [if_pos (rfl : (k₁, v₁).1 = k₁)]
      simp [objLookup]
    · rw [if_neg (hk : ¬ (k₁, v₁).1 = k)]
      simp only [objLookup, if_neg hk] at h
      simp only [objLookup, if_neg hk]
      exact ih h

/-- Appending a missing key makes it the lookup result. -/
theorem objLookup_append_missing (fs : List (String × JsVal)) (k : String)
    (v : JsVal) (h : objLookup k fs = none) :
    objLookup k (fs ++ [(k, v)]) = some v := by
  induction fs with
  | nil => simp [objLookup]
  | cons p rest ih =>
    obtain ⟨k₁, v₁⟩ := p
    by_cases hk : k₁ = k
    · simp [objLookup, hk] at h
    · simp only [objLookup, hk, if_neg hk] at h
      simp only [List.cons_append, objLookup, if_neg hk]
      exact ih h

/-- Setting a key makes it the lookup result, present or not. -/
theorem objLookup_setProp_self (fs : List (String × JsVal)) (k : String)
    (v : JsVal) : objLookup k (setProp fs k v) = some v := by
  unfold setProp
  by_cases h : (objLookup k fs).isSome = true
  · rw [if_pos h]
    exact objLookup_map_setProp fs k v h
  · rw [if_neg h]
    refine objLookup_append_missing fs k v ?_
    rcases hl : objLookup k fs with _ | w
    · rfl
    · rw [hl] at h
      simp at h

/-- Overwriting key `k` in place leaves other keys' lookups unchanged. -/
theorem objLookup_map_ne (fs : List (String × JsVal)) (k k' : String)
    (v : JsVal) (h : k' ≠ k) :
    objLookup k' (fs.map (fun p => if p.1 = k then (k, v) else p)) =
      objLookup k' fs := by
  induction fs with
  | nil => rfl
  | cons p rest ih =>
    obtain ⟨k₁, v₁⟩ := p
    simp only [List.map_cons]
    by_cases hk : k₁ = k
    · subst hk
      rw [if_pos (rfl : (k₁, v₁).1 = k₁)]
      have hne : ¬ k₁ = k' := fun hh => h (Eq.symm hh)
      simp only [objLookup, if_neg hne]
      exact ih
    · rw [if_neg (hk : ¬ (k₁, v₁).1 = k)]
      by_cases hk' : k₁ = k'
      · simp [objLookup, hk']
      · simp only [objLookup, if_neg hk']
        exact ih

/-- Appending key `k` leaves other keys' lookups unchanged. -/
theorem objLookup_append_ne (fs : List (String × JsVal)) (k k' : String)
    (v : JsVal) (h : k' ≠ k) :
    objLookup k' (fs ++ [(k, v)]) = objLookup k' fs := by
  induction fs with
  | nil =>
    have hne : ¬ k = k' := fun hh => h (Eq.symm hh)
    simp [objLookup, hne]
  | cons p rest ih =>
    obtain ⟨k₁, v₁⟩ := p
    by_cases hk' : k₁ = k'
    · simp [objLookup, hk']
    · simp only [List.cons_append, objLookup, if_neg hk']
      exact ih

/-- Setting key `k` leaves other keys' lookups unchanged. -/
theorem objLookup_setProp_ne (fs : List (String × JsVal)) (k k' : String)
    (v : JsVal) (h : k' ≠ k) :
    objLookup k' (setProp fs k v) = objLookup k' fs := by
  unfold setProp
  by_cases hs : (objLookup k fs).isSome = true
  · rw [if_pos hs]
    exact objLookup_map_ne fs k k' v h
  · rw [if_neg hs]
    exact objLookup_append_ne fs k k' v h

/-! ## Per-field lookups in a stringified exposure entry -/

/-- A finite `JsNum` is a rational. -/
theorem isFinite_eq_num {n : JsNum} (h : n.isFinite = true) :
    ∃ q, n = .num q := by
  cases n with
  | num q => exact ⟨q, rfl⟩
  | nan => simp [JsNum.isFinite] at h
  | inf => simp [JsNum.isFinite] at h
  | negInf => simp [JsNum.isFinite] at h

/-- The `id` field of a stringified entry. -/
theorem entryLookup_id (e : ExposureEntry) :
    objLookup "id" (jsonifyObj (entryFields e)) = some (.str e.id) := by
  simp [entryFields, objLookup_jsonifyObj_cons_str]

/-- The `timestamp` field of a stringified entry. -/
theorem entryLookup_timestamp (e : ExposureEntry) :
    objLookup "timestamp" (jsonifyObj (entryFields e)) =
      some (.str e.timestamp) := by
  simp +decide [entryFields, objLookup_jsonifyObj_cons_ne,
    objLookup_jsonifyObj_cons_str]

/-- The `cameraId` field of a stringified entry. -/
theorem entryLookup_cameraId (e : ExposureEntry) :
    objLookup "cameraId" (jsonifyObj (entryFields e)) =
      (e.cameraId).map JsVal.str := by
  rcases he : e.cameraId with _ | s <;>
    simp +decide [entryFields, he, optStr, optNum, optInt, optLoc, objLookup, jsonifyVal,
      objLookup_jsonifyObj_cons_ne, objLookup_jsonifyObj_cons_undef,
      objLookup_jsonifyObj_cons_str, objLookup_jsonifyObj_nil]

/-- The `cameraName` field of a stringified entry. -/
theorem entryLookup_cameraName (e : ExposureEntry) :
    objLookup "cameraName" (jsonifyObj (entryFields e)) =
      (e.cameraName).map JsVal.str := by
  rcases he : e.cameraName with _ | s <;>
    simp +decide [entryFields, he, optStr, optNum, optInt, optLoc, objLookup, jsonifyVal,
      objLookup_jsonifyObj_cons_ne, objLookup_jsonifyObj_cons_undef,
      objLookup_jsonifyObj_cons_str, objLookup_jsonifyObj_nil]

/-- The `lensId` field of a stringified entry. -/
theorem entryLookup_lensId (e : ExposureEntry) :
    objLookup "lensId" (jsonifyObj (entryFields e)) =
      (e.lensId).map JsVal.str := by
  rcases he : e.lensId with _ | s <;>
    simp +decide [entryFields, he, optStr, optNum, optInt, optLoc, objLookup, jsonifyVal,
      objLookup_jsonifyObj_cons_ne, objLookup_jsonifyObj_cons_undef,
      objLookup_jsonifyObj_cons_str, objLookup_jsonifyObj_nil]

/-- The `lensName` field of a stringified entry. -/
theorem entryLookup_lensName (e : ExposureEntry) :
    objLookup "lensName" (jsonifyObj (entryFields e)) =
      (e.lensName).map JsVal.str := by
  rcases he : e.lensName with _ | s <;>
    simp +decide [entryFields, he, optStr, optNum, optInt, optLoc, objLookup, jsonifyVal,
      objLookup_jsonifyObj_cons_ne, objLookup_jsonifyObj_cons_undef,
      objLookup_jsonifyObj_cons_str, objLookup_jsonifyObj_nil]

/-- The `filmStockId` field of a stringified entry. -/
theorem entryLookup_filmStockId (e : ExposureEntry) :
    objLookup "filmStockId" (jsonifyObj (entryFields e)) =
      (e.filmStockId).map JsVal.str := by
  rcases he : e.filmStockId with _ | s <;>
    simp +decide [entryFields, he, optStr, optNum, optInt, optLoc, objLookup, jsonifyVal,
      objLookup_jsonifyObj_cons_ne, objLookup_jsonifyObj_cons_undef,
      objLookup_jsonifyObj_cons_str, objLookup_jsonifyObj_nil]

/-- The `filmStockName` field of a stringified entry. -/
theorem entryLookup_filmStockName (e : ExposureEntry) :
    objLookup "filmStockName" (jsonifyObj (entryFields e)) =
      (e.filmStockName).map JsVal.str := by
  rcases he : e.filmStockName with _ | s <;>
    simp +decide [entryFields, he, optStr, optNum, optInt, optLoc, objLookup, jsonifyVal,
      objLookup_jsonifyObj_cons_ne, objLookup_jsonifyObj_cons_undef,
      objLookup_jsonifyObj_cons_str, objLookup_jsonifyObj_nil]

/-- The `note` field of a stringified entry. -/
theorem entryLookup_note (e : ExposureEntry) :
    objLookup "note" (jsonifyObj (entryFields e)) =
      (e.note).map JsVal.str := by
  rcases he : e.note with _ | s <;>
    simp +decide [entryFields, he, optStr, optNum, optInt, optLoc, objLookup, jsonifyVal,
      objLookup_jsonifyObj_cons_ne, objLookup_jsonifyObj_cons_undef,
      objLookup_jsonifyObj_cons_str, objLookup_jsonifyObj_nil]

/-- The `shutterSpeed` field of a stringified entry. -/
theorem entryLookup_shutterSpeed (e : ExposureEntry) :
    objLookup "shutterSpeed" (jsonifyObj (entryFields e)) =
      (e.shutterSpeed).map JsVal.str := by
  rcases he : e.shutterSpeed with _ | s <;>
    simp +decide [entryFields, he, optStr, optNum, optInt, optLoc, objLookup, jsonifyVal,
      objLookup_jsonifyObj_cons_ne, objLookup_jsonifyObj_cons_undef,
      objLookup_jsonifyObj_cons_str, objLookup_jsonifyObj_nil]

/-- The `aperture` field of a stringified entry. -/
theorem entryLookup_aperture (e : ExposureEntry) :
    objLookup "aperture" (jsonifyObj (entryFields e)) =
      (e.aperture).map JsVal.str := by
  rcases he : e.aperture with _ | s <;>
    simp +decide [entryFields, he, optStr, optNum, optInt, optLoc, objLookup, jsonifyVal,
      objLookup_jsonifyObj_cons_ne, objLookup_jsonifyObj_cons_undef,
      objLookup_jsonifyObj_cons_str, objLookup_jsonifyObj_nil]

/-- The `lensFocalLength` field of a stringified well-formed entry. -/
theorem entryLookup_lensFocalLength (e : ExposureEntry)
    (h : wfOptNum e.lensFocalLength = true) :
    objLookup "lensFocalLength" (jsonifyObj (entryFields e)) =
      (e.lensFocalLength).map JsVal.num := by
  rcases he : e.lensFocalLength with _ | n
  · simp +decide [entryFields, he, optStr, optNum, optInt, optLoc, objLookup, jsonifyVal,
      objLookup_jsonifyObj_cons_ne, objLookup_jsonifyObj_cons_undef,
      objLookup_jsonifyObj_nil]
  · rw [he] at h
    simp only [wfOptNum, Bool.and_eq_true] at h
    obtain ⟨q, rfl⟩ := isFinite_eq_num h.1
    simp +decide [entryFields, he, optStr, optNum, optInt, optLoc, objLookup, jsonifyVal,
      objLookup_jsonifyObj_cons_ne, objLookup_jsonifyObj_cons_numq]

/-- The `filmStockIso` field of a stringified entry. -/
theorem entryLookup_filmStockIso (e : ExposureEntry) :
    objLookup "filmStockIso" (jsonifyObj (entryFields e)) =
      (e.filmStockIso).map (fun i => JsVal.num (.num (i : ℚ))) := by
  rcases he : e.filmStockIso with _ | i <;>
    simp +decide [entryFields, he, optStr, optNum, optInt, optLoc, objLookup, jsonifyVal,
      objLookup_jsonifyObj_cons_ne, objLookup_jsonifyObj_cons_undef,
      objLookup_jsonifyObj_cons_numq, objLookup_jsonifyObj_nil]

/-- The `location` field of a stringified well-formed entry. -/
theorem entryLookup_location (e : ExposureEntry) (h : wfEntry e = true) :
    objLookup "location" (jsonifyObj (entryFields e)) =
      (e.location).map (fun l => JsVal.obj
        [("latitude", .num l.latitude), ("longitude", .num l.longitude),
         ("accuracy", .num l.accuracy)]) := by
  rcases he : e.location with _ | l
  · simp +decide [entryFields, he, optStr, optNum, optInt, optLoc, objLookup, jsonifyVal,
      objLookup_jsonifyObj_cons_ne, objLookup_jsonifyObj_cons_undef,
      objLookup_jsonifyObj_nil]
  · simp only [wfEntry, he, Bool.and_eq_true] at h
    obtain ⟨la, lo, ac⟩ := l
    obtain ⟨⟨hla, hlo⟩, hac⟩ := h.2
    obtain ⟨qa, rfl⟩ := isFinite_eq_num hla
    obtain ⟨qb, rfl⟩ := isFinite_eq_num hlo
    obtain ⟨qc, rfl⟩ := isFinite_eq_num hac
    simp +decide [entryFields, he, optStr, optNum, optInt, optLoc, objLookup, jsonifyVal,
      locationToJs, objLookup_jsonifyObj_cons_ne,
      objLookup_jsonifyObj_cons_obj, jsonifyObj]

/-! ## Decode round trips for single fields -/

/-- An optional string field decodes back after the store/load cycle. -/
theorem decodeOptStr_map_str (x : Option String) :
    decodeOptStr ((x.map JsVal.str).getD .undefined) = some x := by
  cases x <;> rfl

/-- An optional number field decodes back after the store/load cycle. -/
theorem decodeOptNum_map_num (x : Option JsNum) :
    decodeOptNum ((x.map JsVal.num).getD .undefined) = some x := by
  cases x <;> rfl

/-- An optional integer field decodes back after the store/load cycle. -/
theorem decodeOptInt_map_int (x : Option ℤ) :
    decodeOptInt ((x.map (fun i => JsVal.num (.num (i : ℚ)))).getD .undefined) =
      some x := by
  cases x with
  | none => rfl
  | some i => simp [decodeOptInt, Rat.den_intCast, Rat.num_intCast]

/-- An optional location field decodes back after the store/load cycle. -/
theorem decodeLocation_map_loc (x : Option ExposureLocation) :
    decodeLocation ((x.map (fun l => JsVal.obj
      [("latitude", .num l.latitude), ("longitude", .num l.longitude),
       ("accuracy", .num l.accuracy)])).getD .undefined) = some x := by
  cases x with
  | none => rfl
  | some l =>
    obtain ⟨la, lo, ac⟩ := l
    simp [decodeLocation, objLookup, decodeOptNum]

/-- Sanitizing a stringified well-formed entry only rewrites the
`lensFocalLength` key, with the original value. -/
theorem entry_sanitize_eq (e : ExposureEntry) (h : wfEntry e = true) :
    sanitizeExposureEntry (jsonifyVal (entryToJs e)) =
      some (setProp (jsonifyObj (entryFields e)) "lensFocalLength"
        (optNum e.lensFocalLength)) := by
  have hwfn : wfOptNum e.lensFocalLength = true := by
    simp only [wfEntry, Bool.and_eq_true] at h
    exact h.1
  have hraw := entryLookup_lensFocalLength e hwfn
  rcases he : e.lensFocalLength with _ | n
  · rw [he] at hraw
    simp [sanitizeExposureEntry, entryToJs, jsonifyVal, restOf, getProp,
      JsVal.isObjectLike, hraw, coerceFocalLength, JsVal.isNullish, he,
      optNum]
  · rw [he] at hraw
    rw [he] at hwfn
    simp only [wfOptNum, Bool.and_eq_true] at hwfn
    simp [sanitizeExposureEntry, entryToJs, jsonifyVal, restOf, getProp,
      JsVal.isObjectLike, hraw, coerceFocalLength, JsVal.isNullish,
      JsVal.isEmptyStr, jsToNumber, hwfn.1, hwfn.2, he, optNum]

/-- Decoding the sanitized object recovers the original entry. -/
theorem entry_decode_eq (e : ExposureEntry) (h : wfEntry e = true) :
    decodeEntry (setProp (jsonifyObj (entryFields e)) "lensFocalLength"
      (optNum e.lensFocalLength)) = some e := by
  have hid : decodeStr ((objLookup "id" (setProp (jsonifyObj (entryFields e))
      "lensFocalLength" (optNum e.lensFocalLength))).getD .undefined) =
      some e.id := by
    rw [objLookup_setProp_ne _ _ _ _ (by decide), entryLookup_id]
    rfl
  have hts : decodeStr ((objLookup "timestamp"
      (setProp (jsonifyObj (entryFields e)) "lensFocalLength"
        (optNum e.lensFocalLength))).getD .undefined) = some e.timestamp := by
    rw [objLookup_setProp_ne _ _ _ _ (by decide), entryLookup_timestamp]
    rfl
  have hcid : decodeOptStr ((objLookup "cameraId"
      (setProp (jsonifyObj (entryFields e)) "lensFocalLength"
        (optNum e.lensFocalLength))).getD .undefined) = some e.cameraId := by
    rw [objLookup_setProp_ne _ _ _ _ (by decide), entryLookup_cameraId]
    exact decodeOptStr_map_str _
  have hcn : decodeOptStr ((objLookup "cameraName"
      (setProp (jsonifyObj (entryFields e)) "lensFocalLength"
        (optNum e.lensFocalLength))).getD .undefined) = some e.cameraName := by
    rw [objLookup_setProp_ne _ _ _ _ (by decide), entryLookup_cameraName]
    exact decodeOptStr_map_str _
  have hlid : decodeOptStr ((objLookup "lensId"
      (setProp (jsonifyObj (entryFields e)) "lensFocalLength"
        (optNum e.lensFocalLength))).getD .undefined) = some e.lensId := by
    rw [objLookup_setProp_ne _ _ _ _ (by decide), entryLookup_lensId]
    exact decodeOptStr_map_str _
  have hln : decodeOptStr ((objLookup "lensName"
      (setProp (jsonifyObj (entryFields e)) "lensFocalLength"
        (optNum e.lensFocalLength))).getD .undefined) = some e.lensName := by
    rw [objLookup_setProp_ne _ _ _ _ (by decide), entryLookup_lensName]
    exact decodeOptStr_map_str _
  have hfl : decodeOptNum ((objLookup "lensFocalLength"
      (setProp (jsonifyObj (entryFields e)) "lensFocalLength"
        (optNum e.lensFocalLength))).getD .undefined) =
      some e.lensFocalLength := by
    rw [objLookup_setProp_self]
    cases e.lensFocalLength <;> rfl
  have hfid : decodeOptStr ((objLookup "filmStockId"
      (setProp (jsonifyObj (entryFields e)) "lensFocalLength"
        (optNum e.lensFocalLength))).getD .undefined) = some e.filmStockId := by
    rw [objLookup_setProp_ne _ _ _ _ (by decide), entryLookup_filmStockId]
    exact decodeOptStr_map_str _
  have hfn : decodeOptStr ((objLookup "filmStockName"
      (setProp (jsonifyObj (entryFields e)) "lensFocalLength"
        (optNum e.lensFocalLength))).getD .undefined) =
      some e.filmStockName := by
    rw [objLookup_setProp_ne _ _ _ _ (by decide), entryLookup_filmStockName]
    exact decodeOptStr_map_str _
  have hiso : decodeOptInt ((objLookup "filmStockIso"
      (setProp (jsonifyObj (entryFields e)) "lensFocalLength"
        (optNum e.lensFocalLength))).getD .undefined) = some e.filmStockIso := by
    rw [objLookup_setProp_ne _ _ _ _ (by decide), entryLookup_filmStockIso]
    exact decodeOptInt_map_int _
  have hnote : decodeOptStr ((objLookup "note"
      (setProp (jsonifyObj (entryFields e)) "lensFocalLength"
        (optNum e.lensFocalLength))).getD .undefined) = some e.note := by
    rw [objLookup_setProp_ne _ _ _ _ (by decide), entryLookup_note]
    exact decodeOptStr_map_str _
  have hss : decodeOptStr ((objLookup "shutterSpeed"
      (setProp (jsonifyObj (entryFields e)) "lensFocalLength"
        (optNum e.lensFocalLength))).getD .undefined) = some e.shutterSpeed := by
    rw [objLookup_setProp_ne _ _ _ _ (by decide), entryLookup_shutterSpeed]
    exact decodeOptStr_map_str _
  have hap : decodeOptStr ((objLookup "aperture"
      (setProp (jsonifyObj (entryFields e)) "lensFocalLength"
        (optNum e.lensFocalLength))).getD .undefined) = some e.aperture := by
    rw [objLookup_setProp_ne _ _ _ _ (by decide), entryLookup_aperture]
    exact decodeOptStr_map_str _
  have hloc : decodeLocation ((objLookup "location"
      (setProp (jsonifyObj (entryFields e)) "lensFocalLength"
        (optNum e.lensFocalLength))).getD .undefined) = some e.location := by
    rw [objLookup_setProp_ne _ _ _ _ (by decide), entryLookup_location e h]
    exact decodeLocation_map_loc _
  simp only [decodeEntry, hid, hts, hcid, hcn, hlid, hln, hfl, hfid, hfn,
    hiso, hnote, hss, hap, hloc, Option.bind_eq_bind, Option.some_bind]

/-- Unfolding the exposure write-then-load pipeline. -/
theorem exposuresRoundTrip_eq (log : List ExposureEntry) :
    exposuresRoundTrip log =
      (List.filterMap sanitizeExposureEntry
        (jsonifyList (log.map entryToJs))).mapM decodeEntry := rfl

/-- Storing a list of well-formed entries write-through and re-hydrating
yields the same list. -/
theorem exposures_roundtrip_wf (log : List ExposureEntry)
    (h : log.all wfEntry = true) : exposuresRoundTrip log = some log := by
  induction log with
  | nil => rfl
  | cons e rest ih =>
    simp only [List.all_cons, Bool.and_eq_true] at h
    have hs := entry_sanitize_eq e h.1
    have hd := entry_decode_eq e h.1
    have ihh := ih h.2
    rw [exposuresRoundTrip_eq]
    simp only [List.map_cons, jsonifyList, List.filterMap_cons, hs]
    rw [List.mapM_cons, hd, ← exposuresRoundTrip_eq rest, ihh]
    simp

/-! ## Settings sanitizer round trips -/

/-- `Math.round` is the identity on integers. -/
theorem jsRound_intCast (i : ℤ) : jsRound (i : ℚ) = i := by
  unfold jsRound
  rw [Int.floor_int_add]
  norm_num

/-- A stored well-formed camera list survives `sanitizeCameras`. -/
theorem sanitizeCamerasGo_roundtrip (gen : ℕ → String) (k : ℕ)
    (cams : List Camera) (h : cams.all wfCamera = true) :
    sanitizeCamerasGo gen k (jsonifyList (cams.map cameraToJs)) = cams := by
  induction cams generalizing k with
  | nil => rfl
  | cons c rest ih =>
    simp only [List.all_cons, Bool.and_eq_true] at h
    obtain ⟨hc, hrest⟩ := h
    simp only [wfCamera, wfName, Bool.and_eq_true, decide_eq_true_eq,
      beq_iff_eq] at hc
    obtain ⟨c1, c2⟩ := hc
    simp only [List.map_cons, jsonifyList]
    have hobj : jsonifyVal (cameraToJs c) =
        .obj [("id", .str c.id), ("name", .str c.name)] := rfl
    rw [hobj]
    simp +decide [sanitizeCamerasGo, JsVal.isObjectLike, getProp, objLookup,
      coalesceEmptyStr, JsVal.isNullish, jsToString, c2, c1, ih _ hrest]

/-- A stored well-formed lens list survives `sanitizeLenses`. -/
theorem sanitizeLensesGo_roundtrip (gen : ℕ → String) (k : ℕ)
    (ls : List Lens) (h : ls.all wfLens = true) :
    sanitizeLensesGo gen k (jsonifyList (ls.map lensToJs)) = ls := by
  induction ls generalizing k with
  | nil => rfl
  | cons l rest ih =>
    simp only [List.all_cons, Bool.and_eq_true] at h
    obtain ⟨hl, hrest⟩ := h
    simp only [wfLens, wfName, Bool.and_eq_true, decide_eq_true_eq,
      beq_iff_eq] at hl
    obtain ⟨⟨l1, l2⟩, lfl⟩ := hl
    obtain ⟨lid, lname, fl⟩ := l
    simp only [List.map_cons, jsonifyList]
    rcases fl with _ | n
    · have hobj : jsonifyVal (lensToJs ⟨lid, lname, none⟩) =
          .obj [("id", .str lid), ("name", .str lname)] := rfl
      rw [hobj]
      simp +decide [sanitizeLensesGo, JsVal.isObjectLike, getProp, objLookup,
        coalesceEmptyStr, JsVal.isNullish, jsToString, coerceFocalLength,
        l2, l1, ih _ hrest]
    · simp only [wfOptNum, Bool.and_eq_true] at lfl
      obtain ⟨q, rfl⟩ := isFinite_eq_num lfl.1
      have hq := lfl.2
      have hobj : jsonifyVal (lensToJs ⟨lid, lname, some (.num q)⟩) =
          .obj [("id", .str lid), ("name", .str lname),
                ("focalLength", .num (.num q))] := rfl
      rw [hobj]
      simp +decide [sanitizeLensesGo, JsVal.isObjectLike, getProp, objLookup,
        coalesceEmptyStr, JsVal.isNullish, JsVal.isEmptyStr, jsToString,
        jsToNumber, coerceFocalLength, JsNum.isFinite, hq,
        l2, l1, ih _ hrest]

/-- A stored well-formed film-stock list survives `sanitizeFilmStocks`. -/
theorem sanitizeFilmStocksGo_roundtrip (gen : ℕ → String) (k : ℕ)
    (films : List FilmStock) (h : films.all wfFilmStock = true) :
    sanitizeFilmStocksGo gen k (jsonifyList (films.map filmStockToJs)) =
      films := by
  induction films generalizing k with
  | nil => rfl
  | cons f rest ih =>
    simp only [List.all_cons, Bool.and_eq_true] at h
    obtain ⟨hf, hrest⟩ := h
    simp only [wfFilmStock, wfName, Bool.and_eq_true, decide_eq_true_eq,
      beq_iff_eq] at hf
    obtain ⟨⟨⟨f1, f2⟩, fiso⟩, ffmt⟩ := hf
    obtain ⟨fid, fname, iso, fmt⟩ := f
    have hiso : max 1 (jsRound (iso : ℚ)) = iso := by
      rw [jsRound_intCast]
      exact max_eq_right fiso
    simp only [List.map_cons, jsonifyList]
    rcases fmt with _ | s
    · have hobj : jsonifyVal (filmStockToJs ⟨fid, fname, iso, none⟩) =
          .obj [("id", .str fid), ("name", .str fname),
                ("iso", .num (.num (iso : ℚ)))] := rfl
      rw [hobj]
      simp +decide [sanitizeFilmStocksGo, JsVal.isObjectLike, getProp,
        objLookup, coalesceEmptyStr, JsVal.isNullish, jsToString,
        coerceIso, coerceFormat, JsVal.truthy, hiso, f2, f1, ih _ hrest]
    · simp only [wfName, Bool.and_eq_true, decide_eq_true_eq,
        beq_iff_eq] at ffmt
      have hobj : jsonifyVal (filmStockToJs ⟨fid, fname, iso, some s⟩) =
          .obj [("id", .str fid), ("name", .str fname),
                ("iso", .num (.num (iso : ℚ))), ("format", .str s)] := rfl
      rw [hobj]
      simp +decide [sanitizeFilmStocksGo, JsVal.isObjectLike, getProp,
        objLookup, coalesceEmptyStr, JsVal.isNullish, jsToString,
        coerceIso, coerceFormat, JsVal.truthy, hiso, f2, f1,
        ffmt.1, ffmt.2, ih _ hrest]

/-- Storing a well-formed settings state write-through and re-hydrating
yields the same state. -/
theorem settings_roundtrip_wf (gen : ℕ → String) (st : FilmSettingsState)
    (h : wfSettings st = true) : settingsRoundTrip gen st = some st := by
  simp only [wfSettings, Bool.and_eq_true] at h
  obtain ⟨⟨hc, hl⟩, hf⟩ := h
  obtain ⟨cams, lenses, films, cc, cl, cf, loc⟩ := st
  rcases cc with _ | c <;> rcases cl with _ | l <;> rcases cf with _ | f <;>
    simp +decide [settingsRoundTrip, stateToJs, stateFields, jsonifyVal,
      jsonifyObj, optStr, hydrateSettings, restOf, destructuredKeys,
      defaultScalars, objLookup, sanitizeCameras, sanitizeLenses,
      sanitizeFilmStocks, sanitizeCamerasGo_roundtrip gen 0 cams hc,
      sanitizeLensesGo_roundtrip gen 0 lenses hl,
      sanitizeFilmStocksGo_roundtrip gen 0 films hf,
      decodeSettings, decodeOptStr, decodeBool, List.filter]

/-! ## Lookup through filters and appends (hydration `...rest` spread) -/

/-- A key whose pairs a filter rejects cannot be looked up afterwards. -/
theorem objLookup_filter_out (fs : List (String × JsVal)) (k : String)
    (p : String × JsVal → Bool) (hp : ∀ v, p (k, v) = false) :
    objLookup k (fs.filter p) = none := by
  induction fs with
  | nil => rfl
  | cons q rest ih =>
    obtain ⟨k₁, v₁⟩ := q
    by_cases hk : k₁ = k
    · subst hk
      rw [List.filter_cons, hp v₁]
      exact ih
    · rw [List.filter_cons]
      cases hpv : p (k₁, v₁)
      · exact ih
      · simp only [objLookup, if_neg hk]
        exact ih

/-- A key whose pairs a filter keeps looks up the same afterwards. -/
theorem objLookup_filter_keep (fs : List (String × JsVal)) (k : String)
    (p : String × JsVal → Bool) (hp : ∀ v, p (k, v) = true) :
    objLookup k (fs.filter p) = objLookup k fs := by
  induction fs with
  | nil => rfl
  | cons q rest ih =>
    obtain ⟨k₁, v₁⟩ := q
    by_cases hk : k₁ = k
    · subst hk
      rw [List.filter_cons, hp v₁]
      simp [objLookup]
    · rw [List.filter_cons]
      cases hpv : p (k₁, v₁)
      · show objLookup k (List.filter p rest) = _
        rw [ih]
        simp only [objLookup, if_neg hk]
      · show objLookup k ((k₁, v₁) :: List.filter p rest) = _
        simp only [objLookup, if_neg hk]
        exact ih

/-- Lookup passes to the right list when the left misses the key. -/
theorem objLookup_append_left_none (fs gs : List (String × JsVal))
    (k : String) (h : objLookup k fs = none) :
    objLookup k (fs ++ gs) = objLookup k gs := by
  induction fs with
  | nil => rfl
  | cons q rest ih =>
    obtain ⟨k₁, v₁⟩ := q
    by_cases hk : k₁ = k
    · simp [objLookup, hk] at h
    · simp only [objLookup, if_neg hk] at h
      simp only [List.cons_append, objLookup, if_neg hk]
      exact ih h

/-- Lookup stays in the left list when it hits the key there. -/
theorem objLookup_append_left_some (fs gs : List (String × JsVal))
    (k : String) (v : JsVal) (h : objLookup k fs = some v) :
    objLookup k (fs ++ gs) = some v := by
  induction fs with
  | nil => simp [objLookup] at h
  | cons q rest ih =>
    obtain ⟨k₁, v₁⟩ := q
    by_cases hk : k₁ = k
    · simp only [objLookup, if_pos hk] at h
      simp only [List.cons_append, objLookup, if_pos hk]
      exact h
    · simp only [objLookup, if_neg hk] at h
      simp only [List.cons_append, objLookup, if_neg hk]
      exact ih h

/-! ## What the sanitizers guarantee about their output -/

/-- Every camera a sanitizer emits has a nonempty name. -/
theorem sanitizeCamerasGo_name_ne (gen : ℕ → String) (k : ℕ)
    (items : List JsVal) :
    ∀ cam ∈ sanitizeCamerasGo gen k items, cam.name ≠ "" := by
  induction items generalizing k with
  | nil => intro cam hm; simp [sanitizeCamerasGo] at hm
  | cons item rest ih =>
    intro cam hm
    by_cases ho : item.isObjectLike = true
    · simp only [sanitizeCamerasGo, ho, not_true, if_neg] at hm
      by_cases hn :
          jsTrim (jsToString (coalesceEmptyStr (getProp item "name"))) = ""
      · rw [if_pos hn] at hm
        exact ih k cam hm
      · rw [if_neg hn] at hm
        by_cases hi : (getProp item "id").isNullish = true
        · rw [if_pos hi] at hm
          rcases List.mem_cons.1 hm with h | h
          · rw [h]; exact hn
          · exact ih (k + 1) cam h
        · rw [if_neg hi] at hm
          rcases List.mem_cons.1 hm with h | h
          · rw [h]; exact hn
          · exact ih k cam h
    · have ho' : item.isObjectLike = false := by simpa using ho
      simp only [sanitizeCamerasGo, ho'] at hm
      exact ih k cam (by simpa using hm)

/-- Every lens a sanitizer emits has a nonempty name and, when present,
a finite positive focal length. -/
theorem sanitizeLensesGo_wf (gen : ℕ → String) (k : ℕ)
    (items : List JsVal) :
    ∀ lens ∈ sanitizeLensesGo gen k items, lens.name ≠ "" ∧
      ∀ n ∈ lens.focalLength, n.isFinite = true ∧ n.gtZero = true := by
  induction items generalizing k with
  | nil => intro lens hm; simp [sanitizeLensesGo] at hm
  | cons item rest ih =>
    intro lens hm
    have hcoerce : ∀ n ∈ coerceFocalLength (getProp item "focalLength"),
        n.isFinite = true ∧ n.gtZero = true := by
      intro n hn
      unfold coerceFocalLength at hn
      by_cases hc : (¬ (getProp item "focalLength").isNullish = true ∧
          ¬ (getProp item "focalLength").isEmptyStr = true)
      · rw [if_pos hc] at hn
        by_cases hfin : (jsToNumber (getProp item "focalLength")).isFinite =
            true ∧ (jsToNumber (getProp item "focalLength")).gtZero = true
        · rw [if_pos hfin] at hn
          obtain rfl : jsToNumber (getProp item "focalLength") = n := by
            simpa using hn
          exact hfin
        · rw [if_neg hfin] at hn
          simp at hn
      · rw [if_neg hc] at hn
        simp at hn
    by_cases ho : item.isObjectLike = true
    · simp only [sanitizeLensesGo, ho, not_true, if_neg] at hm
      by_cases hn :
          jsTrim (jsToString (coalesceEmptyStr (getProp item "name"))) = ""
      · rw [if_pos hn] at hm
        exact ih k lens hm
      · rw [if_neg hn] at hm
        by_cases hi : (getProp item "id").isNullish = true
        · rw [if_pos hi] at hm
          rcases List.mem_cons.1 hm with h | h
          · rw [h]; exact ⟨hn, hcoerce⟩
          · exact ih (k + 1) lens h
        · rw [if_neg hi] at hm
          rcases List.mem_cons.1 hm with h | h
          · rw [h]; exact ⟨hn, hcoerce⟩
          · exact ih k lens h
    · have ho' : item.isObjectLike = false := by simpa using ho
      simp only [sanitizeLensesGo, ho'] at hm
      exact ih k lens (by simpa using hm)

/-- Every film stock a sanitizer emits has a nonempty name and an
integral iso of at least 1. -/
theorem sanitizeFilmStocksGo_wf (gen : ℕ → String) (k : ℕ)
    (items : List JsVal) :
    ∀ film ∈ sanitizeFilmStocksGo gen k items, film.name ≠ "" ∧
      1 ≤ film.iso := by
  induction items generalizing k with
  | nil => intro film hm; simp [sanitizeFilmStocksGo] at hm
  | cons item rest ih =>
    intro film hm
    have hiso : 1 ≤ coerceIso (getProp item "iso") := by
      unfold coerceIso
      rcases getProp item "iso" with _ | _ | b | n | s | xs | fs
      · norm_num
      · norm_num
      · norm_num
      · rcases n with q | _ | _ | _
        · exact le_max_left 1 (jsRound q)
        · norm_num
        · norm_num
        · norm_num
      · norm_num
      · norm_num
      · norm_num
    by_cases ho : item.isObjectLike = true
    · simp only [sanitizeFilmStocksGo, ho, not_true, if_neg] at hm
      by_cases hn :
          jsTrim (jsToString (coalesceEmptyStr (getProp item "name"))) = ""
      · rw [if_pos hn] at hm
        exact ih k film hm
      · rw [if_neg hn] at hm
        by_cases hi : (getProp item "id").isNullish = true
        · rw [if_pos hi] at hm
          rcases List.mem_cons.1 hm with h | h
          · rw [h]; exact ⟨hn, hiso⟩
          · exact ih (k + 1) film h
        · rw [if_neg hi] at hm
          rcases List.mem_cons.1 hm with h | h
          · rw [h]; exact ⟨hn, hiso⟩
          · exact ih k film h
    · have ho' : item.isObjectLike = false := by simpa using ho
      simp only [sanitizeFilmStocksGo, ho'] at hm
      exact ih k film (by simpa using hm)

/-! ## C2 -/

/-- C2 fails as stated: the state produced by the store's own
`addCamera` with a whitespace-only name (which the add-operations accept)
does not survive the write-then-load cycle — the sanitizer drops the
empty-named camera while the dangling current pointer is retained. -/
theorem C2_counterexample :
    Reachable (addCamera defaultState " " "cam-1") ∧
    settingsRoundTrip (fun _ => "gen") (addCamera defaultState " " "cam-1") ≠
      some (addCamera defaultState " " "cam-1") := by
  refine ⟨.addCamera _ _ .default, ?_⟩
  have h0 : jsTrim "" = "" := by decide
  have h1 : jsTrim " " = "" := by decide
  have heval : settingsRoundTrip (fun _ => "gen")
      (addCamera defaultState " " "cam-1") =
      some { cameras := [], lenses := [], filmStocks := [],
             currentCameraId := some "cam-1", currentLensId := none,
             currentFilmStockId := none, locationEnabled := false } := by
    simp +decide [settingsRoundTrip, addCamera, defaultState, idFalsy, h0, h1,
      stateToJs, stateFields, cameraToJs, optStr, jsonifyVal, jsonifyList,
      jsonifyObj, hydrateSettings, restOf, destructuredKeys, defaultScalars,
      objLookup, sanitizeCameras, sanitizeLenses, sanitizeFilmStocks,
      sanitizeCamerasGo, sanitizeLensesGo, sanitizeFilmStocksGo,
      getProp, coalesceEmptyStr, JsVal.isNullish, JsVal.isObjectLike,
      jsToString, decodeSettings, decodeOptStr, decodeBool, List.filter]
  rw [heval]
  intro he
  have hc := congrArg FilmSettingsState.cameras (Option.some.inj he)
  simp [addCamera, defaultState] at hc

/-- C2 amended: the write-then-load round trip is the identity on
settings states whose entities all have nonempty trimmed names, finite
positive focal lengths, integral iso of at least one and nonempty
trimmed formats, and on exposure logs whose entries have absent-or-
finite-positive focal lengths and finite location coordinates; states
producible by the store that violate these (e.g. via an unvalidated
empty name) are not preserved. -/
theorem C2_amended_roundtrip (gen : ℕ → String) (st : FilmSettingsState)
    (log : List ExposureEntry) (hs : wfSettings st = true)
    (hl : log.all wfEntry = true) :
    settingsRoundTrip gen st = some st ∧
    exposuresRoundTrip log = some log :=
  ⟨settings_roundtrip_wf gen st hs, exposures_roundtrip_wf log hl⟩

/-- C2 amended, witnessed at a concrete populated store and log. -/
theorem C2_witness :
    wfSettings exampleSettings = true ∧
    exampleLog.all wfEntry = true ∧
    settingsRoundTrip (fun _ => "gen") exampleSettings =
      some exampleSettings ∧
    exposuresRoundTrip exampleLog = some exampleLog :=
  ⟨by decide, by decide,
   (C2_amended_roundtrip (fun _ => "gen") exampleSettings exampleLog
     (by decide) (by decide)).1,
   (C2_amended_roundtrip (fun _ => "gen") exampleSettings exampleLog
     (by decide) (by decide)).2⟩

/-! ## C7 -/

/-- C7 fails as stated: an unknown field other than `rollLabel` in the
stored JSON is NOT discarded — the `...rest` spread copies it into the
resulting state object. -/
theorem C7_counterexample :
    objLookup "legacyNote"
      (hydrateSettings (fun _ => "gen")
        (.ok (.obj [("legacyNote", .str "keep me"),
                    ("rollLabel", .str "Roll 1")]))).1.scalars =
      some (.str "keep me") := rfl

/-- C7 amended: hydration discards exactly the one legacy field
`rollLabel`; every other unknown field of the stored object is spread
into the resulting state.  The three catalog lists are rebuilt by the
sanitizers, which silently drop entries that are not objects or lack a
nonempty trimmed name, keep lens focal lengths only when finite and
positive, and clamp film iso to an integer of at least 1. -/
theorem C7_amended_hydration (gen : ℕ → String)
    (fields : List (String × JsVal)) :
    (objLookup "rollLabel"
      (hydrateSettings gen (.ok (.obj fields))).1.scalars = none) ∧
    (∀ k v, k ∉ destructuredKeys → objLookup k fields = some v →
      objLookup k (hydrateSettings gen (.ok (.obj fields))).1.scalars =
        some v) ∧
    ((hydrateSettings gen (.ok (.obj fields))).1.cameras =
      sanitizeCameras gen ((objLookup "cameras" fields).getD .undefined) ∧
     (hydrateSettings gen (.ok (.obj fields))).1.lenses =
      sanitizeLenses gen ((objLookup "lenses" fields).getD .undefined) ∧
     (hydrateSettings gen (.ok (.obj fields))).1.filmStocks =
      sanitizeFilmStocks gen ((objLookup "filmStocks" fields).getD .undefined)) ∧
    (∀ v cam, cam ∈ sanitizeCameras gen v → cam.name ≠ "") ∧
    (∀ v lens, lens ∈ sanitizeLenses gen v → lens.name ≠ "" ∧
      ∀ n ∈ lens.focalLength, n.isFinite = true ∧ n.gtZero = true) ∧
    (∀ v film, film ∈ sanitizeFilmStocks gen v → film.name ≠ "" ∧
      1 ≤ film.iso) := by
  refine ⟨?_, ?_, ⟨rfl, rfl, rfl⟩, ?_, ?_, ?_⟩
  · have h1 : objLookup "rollLabel"
        (fields.filter (fun p => p.1 ∉ destructuredKeys)) = none :=
      objLookup_filter_out _ _ _ (fun v => by simp [destructuredKeys])
    show objLookup "rollLabel"
      (fields.filter (fun p => p.1 ∉ destructuredKeys) ++ defaultScalars) =
      none
    rw [objLookup_append_left_none _ _ _ h1]
    rfl
  · intro k v hk hkv
    have h1 : objLookup k
        (fields.filter (fun p => p.1 ∉ destructuredKeys)) =
        objLookup k fields :=
      objLookup_filter_keep _ _ _ (fun w => decide_eq_true hk)
    show objLookup k
      (fields.filter (fun p => p.1 ∉ destructuredKeys) ++ defaultScalars) =
      some v
    exact objLookup_append_left_some _ _ _ _ (h1.trans hkv)
  · intro v cam hm
    rcases v with _ | _ | b | n | s | xs | fs2
    case arr => exact sanitizeCamerasGo_name_ne gen 0 xs cam hm
    all_goals simp [sanitizeCameras] at hm
  · intro v lens hm
    rcases v with _ | _ | b | n | s | xs | fs2
    case arr => exact sanitizeLensesGo_wf gen 0 xs lens hm
    all_goals simp [sanitizeLenses] at hm
  · intro v film hm
    rcases v with _ | _ | b | n | s | xs | fs2
    case arr => exact sanitizeFilmStocksGo_wf gen 0 xs film hm
    all_goals simp [sanitizeFilmStocks] at hm

/-- C7 amended, witnessed: a store payload with a retained unknown field
and a malformed (empty-name) camera entry that is dropped. -/
theorem C7_witness :
    objLookup "legacyNote"
      (hydrateSettings (fun _ => "gen")
        (.ok (.obj [("legacyNote", .str "keep me")]))).1.scalars =
      some (.str "keep me") :=
  (C7_amended_hydration (fun _ => "gen")
    [("legacyNote", .str "keep me")]).2.1 "legacyNote" (.str "keep me")
    (by decide) rfl

/-! ## C8 -/

/-- C8: when the stored JSON fails to parse, hydration catches the error
inside (the boolean result records the logged warning) and both stores
end in their empty default states — the settings store by explicit
reset, the exposure store by keeping its initial empty list. -/
theorem C8_parse_failure_defaults (gen : ℕ → String) :
    hydrateSettings gen (.error ()) = (defaultHydrated, true) ∧
    decodeSettings defaultHydrated = some defaultState ∧
    hydrateExposures (.error ()) [] = ([], true) :=
  ⟨rfl, rfl, rfl⟩

/-! ## C10 -/

/-- Unfolding `sanitizeExposureEntry` on an object. -/
theorem sanitizeExposureEntry_obj (fs : List (String × JsVal)) :
    sanitizeExposureEntry (.obj fs) =
      some (setProp fs "lensFocalLength"
        (match coerceFocalLength
            ((objLookup "lensFocalLength" fs).getD .undefined) with
         | some n => .num n
         | none => .undefined)) := rfl

/-- C10: exposure hydration keeps exactly the array elements that are
objects (`typeof === 'object'`, non-`null`), re-coerces only the
`lensFocalLength` key — kept exactly when the raw value is none of
`undefined`/`null`/`''` and `Number(...)` of it is finite and positive,
and overwritten with `undefined` otherwise — and leaves every other
key of every kept entry unchanged (in particular entries missing `id`,
`timestamp` or the name fields are retained). -/
theorem C10_exposure_hydration :
    (∀ items prev, hydrateExposures (.ok (.arr items)) prev =
      (items.filterMap sanitizeExposureEntry, false)) ∧
    (∀ item : JsVal, sanitizeExposureEntry item = none ↔
      item.isObjectLike = false) ∧
    (∀ fs : List (String × JsVal), ∀ k, k ≠ "lensFocalLength" → ∀ out,
      sanitizeExposureEntry (.obj fs) = some out →
      objLookup k out = objLookup k fs) ∧
    (∀ fs out n, sanitizeExposureEntry (.obj fs) = some out →
      coerceFocalLength ((objLookup "lensFocalLength" fs).getD .undefined) =
        some n →
      objLookup "lensFocalLength" out = some (.num n)) ∧
    (∀ fs out, sanitizeExposureEntry (.obj fs) = some out →
      coerceFocalLength ((objLookup "lensFocalLength" fs).getD .undefined) =
        none →
      objLookup "lensFocalLength" out = some .undefined) ∧
    (∀ raw n, coerceFocalLength raw = some n ↔
      ((¬ raw.isNullish = true ∧ ¬ raw.isEmptyStr = true) ∧
       jsToNumber raw = n ∧ n.isFinite = true ∧ n.gtZero = true)) := by
  refine ⟨fun items prev => rfl, ?_, ?_, ?_, ?_, ?_⟩
  · intro item
    cases item <;> simp [sanitizeExposureEntry, JsVal.isObjectLike]
  · intro fs k hk out hout
    rw [sanitizeExposureEntry_obj] at hout
    obtain rfl := (Option.some.inj hout).symm
    exact objLookup_setProp_ne _ _ _ _ hk
  · intro fs out n hout hc
    rw [sanitizeExposureEntry_obj] at hout
    obtain rfl := (Option.some.inj hout).symm
    rw [objLookup_setProp_self, hc]
  · intro fs out hout hc
    rw [sanitizeExposureEntry_obj] at hout
    obtain rfl := (Option.some.inj hout).symm
    rw [objLookup_setProp_self, hc]
  · intro raw n
    unfold coerceFocalLength
    by_cases h1 : (¬ raw.isNullish = true ∧ ¬ raw.isEmptyStr = true)
    · rw [if_pos h1]
      by_cases h2 : ((jsToNumber raw).isFinite = true ∧
          (jsToNumber raw).gtZero = true)
      · rw [if_pos h2]
        constructor
        · intro he
          obtain rfl := Option.some.inj he
          exact ⟨h1, rfl, h2.1, h2.2⟩
        · rintro ⟨_, hn, _, _⟩
          rw [hn]
      · rw [if_neg h2]
        constructor
        · intro he
          exact absurd he (by simp)
        · rintro ⟨_, hn, hf, hg⟩
          exact absurd ⟨by rw [hn]; exact hf, by rw [hn]; exact hg⟩ h2
    · rw [if_neg h1]
      constructor
      · intro he
        exact absurd he (by simp)
      · rintro ⟨hc, _, _, _⟩
        exact absurd hc h1

/-- C10, witnessed: a kept entry's other keys are unchanged by
sanitization. -/
theorem C10_witness :
    objLookup "note"
      (setProp [("note", JsVal.str "hello")] "lensFocalLength" .undefined) =
      objLookup "note" [("note", JsVal.str "hello")] :=
  C10_exposure_hydration.2.2.1 [("note", .str "hello")] "note" (by decide)
    (setProp [("note", JsVal.str "hello")] "lensFocalLength" .undefined) rfl
